import Mathlib

/-!
Shallow embedding of the CrawlerStorage FUSE filesystem (src/src/fs.rs,
src/src/models.rs) and proofs about the spec's claims.

Modelling conventions:
* machine integers (`u64`, `i32`, `i64`, `u32`) are `Nat`; every conversion
  that can panic in the source (`i32::try_from(..).unwrap()`, string
  slicing) is modelled by an explicit guard whose failure branch is the
  distinguished `crash` outcome (a Rust panic);
* the relational catalog is a record of row lists, in table order; diesel's
  `first` is `List.find?`;
* the blob pool is a list of (path, blob) pairs plus a list of created
  directories; paths are component lists;
* row timestamps (`created_at`) are omitted: no modelled handler reads them.
-/

namespace CrawlerStorage

/-- Kinds of inodes, from `enum InodeKind` in fs.rs (the source spells
Episode as `Eposide`). -/
inductive InodeKind where
  | File
  | Eposide
  | Comic
  | Tag
  | Tagged
  | Special
deriving DecidableEq, Repr

namespace Inode

/-- `Inode::IS_FILE = 1 << 63`. -/
def IS_FILE : Nat := 1 <<< 63
/-- `Inode::IS_EPOSIDE = 1 << 62`. -/
def IS_EPOSIDE : Nat := 1 <<< 62
/-- `Inode::IS_COMIC = 1 << 61`. -/
def IS_COMIC : Nat := 1 <<< 61
/-- `Inode::IS_TAG = 1 << 60`. -/
def IS_TAG : Nat := 1 <<< 60
/-- `Inode::IS_TAGGED = 1 << 59`. -/
def IS_TAGGED : Nat := 1 <<< 59
/-- `Inode::MARK_MASK`. -/
def MARK_MASK : Nat := IS_COMIC ||| IS_EPOSIDE ||| IS_FILE ||| IS_TAG ||| IS_TAGGED
/-- `Inode::NODE_MASK = !MARK_MASK` (bitwise complement on `u64`). -/
def NODE_MASK : Nat := MARK_MASK ^^^ (2 ^ 64 - 1)

/-- `Inode::kind`: classify by the topmost set marker bit. -/
def kindOf (x : Nat) : InodeKind :=
  if x &&& IS_FILE ≠ 0 then .File
  else if x &&& IS_EPOSIDE ≠ 0 then .Eposide
  else if x &&& IS_COMIC ≠ 0 then .Comic
  else if x &&& IS_TAG ≠ 0 then .Tag
  else if x &&& IS_TAGGED ≠ 0 then .Tagged
  else .Special

/-- `Inode::id`: mask off the marker bits. -/
def idOf (x : Nat) : Nat := x &&& NODE_MASK

/-- `Inode::comic(id)`. -/
def comicIno (id : Nat) : Nat := IS_COMIC ||| id
/-- `Inode::eposide(id)`. -/
def eposideIno (id : Nat) : Nat := IS_EPOSIDE ||| id
/-- `Inode::file(id)`. -/
def fileIno (id : Nat) : Nat := IS_FILE ||| id
/-- `Inode::tag(id)`. -/
def tagIno (id : Nat) : Nat := IS_TAG ||| id
/-- `Inode::tagged(id)`. -/
def taggedIno (id : Nat) : Nat := IS_TAGGED ||| id

/-- The marker bit the codec sets for each kind (none for `Special`). -/
def markerBit : InodeKind → Nat
  | .File => IS_FILE
  | .Eposide => IS_EPOSIDE
  | .Comic => IS_COMIC
  | .Tag => IS_TAG
  | .Tagged => IS_TAGGED
  | .Special => 0

/-- The spec's `encode(kind, row_id)`: set the kind bit, OR in the row id. -/
def encode (k : InodeKind) (id : Nat) : Nat := markerBit k ||| id

/-- Number of marker bits (bits 59-63) set in an inode value. -/
def markerCount (x : Nat) : Nat :=
  (List.range 5).countP (fun j => x.testBit (59 + j))

end Inode

open Inode

/-! ## Catalog rows (src/src/models.rs, src/src/schema.rs) -/

/-- Row of table `comics` (`created_at` omitted, never read by handlers). -/
structure Comic where
  id : Nat
  name : String
deriving DecidableEq, Repr

/-- Row of table `eposides`. -/
structure Episode where
  id : Nat
  name : String
  comic_id : Nat
deriving DecidableEq, Repr

/-- Row of table `files`. -/
structure File where
  id : Nat
  name : String
  content_hash : String
  eposid_id : Nat
  access_count : Nat
deriving DecidableEq, Repr

/-- Row of table `tags`. -/
structure Tag where
  id : Nat
  name : String
deriving DecidableEq, Repr

/-- Row of table `taggables`. -/
structure Taggable where
  id : Nat
  tag_id : Nat
  taggable_id : Nat
  taggable_type : String
deriving DecidableEq, Repr

/-- The relational store: one list per table, in table order (diesel's
`first` picks the first matching row of that order). -/
structure Catalog where
  comics : List Comic
  eposides : List Episode
  files : List File
  tags : List Tag
  taggables : List Taggable
deriving DecidableEq, Repr

/-- `Comic::find` (primary-key lookup). -/
def Comic.findRow (id : Nat) (c : Catalog) : Option Comic :=
  c.comics.find? (fun x => x.id == id)

/-- `Comic::find_by_name`. -/
def Comic.findByName (name : String) (c : Catalog) : Option Comic :=
  c.comics.find? (fun x => x.name == name)

/-- `Episode::find`. -/
def Episode.findRow (id : Nat) (c : Catalog) : Option Episode :=
  c.eposides.find? (fun x => x.id == id)

/-- `Episode::find_by_comic_and_name`. -/
def Episode.findByComicAndName (comic_id : Nat) (name : String) (c : Catalog) :
    Option Episode :=
  c.eposides.find? (fun x => x.comic_id == comic_id && x.name == name)

/-- `File::find`. -/
def File.findRow (id : Nat) (c : Catalog) : Option File :=
  c.files.find? (fun x => x.id == id)

/-- `File::find_by_eposide_and_name`. -/
def File.findByEposideAndName (eposide_id : Nat) (name : String) (c : Catalog) :
    Option File :=
  c.files.find? (fun x => x.eposid_id == eposide_id && x.name == name)

/-- `Tag::list`. -/
def Tag.list (c : Catalog) : List Tag := c.tags

/-- `Tag::find`. -/
def Tag.findRow (id : Nat) (c : Catalog) : Option Tag :=
  c.tags.find? (fun x => x.id == id)

/-- `Tag::find_by_name`. -/
def Tag.findByName (name : String) (c : Catalog) : Option Tag :=
  c.tags.find? (fun x => x.name == name)

/-- `Taggable::find`. -/
def Taggable.findRow (id : Nat) (c : Catalog) : Option Taggable :=
  c.taggables.find? (fun x => x.id == id)

/-- SQLite assigns the next integer rowid: one more than the maximum id. -/
def freshId (ids : List Nat) : Nat := ids.foldr max 0 + 1

/-- `update_content_hash(id, hash)` applied to one `files` row. -/
def File.updateHash (fid : Nat) (h : String) (f : File) : File :=
  if f.id == fid then { f with content_hash := h } else f

/-- `File::update_content_hash`: `UPDATE files SET content_hash = h WHERE id = fid`. -/
def Catalog.updateContentHash (c : Catalog) (fid : Nat) (h : String) : Catalog :=
  { c with files := c.files.map (File.updateHash fid h) }

/-- Modelled from the spec: the SQL schema's unique constraint on
`comics.name` lives in the migrations, which are not under src/; §3 states
Comic is unique by `name`, and §9 documents that a duplicate-name insert
fails (the handler then aborts). `none` is the failed insert. -/
def Catalog.insertComic (c : Catalog) (name : String) : Option (Comic × Catalog) :=
  if c.comics.any (fun x => x.name == name) then none
  else
    let row : Comic := ⟨freshId (c.comics.map (·.id)), name⟩
    some (row, { c with comics := c.comics ++ [row] })

/-- Modelled from the spec: `tags.name` unique (migrations not under src/). -/
def Catalog.insertTag (c : Catalog) (name : String) : Option (Tag × Catalog) :=
  if c.tags.any (fun x => x.name == name) then none
  else
    let row : Tag := ⟨freshId (c.tags.map (·.id)), name⟩
    some (row, { c with tags := c.tags ++ [row] })

/-- Modelled from the spec: `eposides` unique by `(comic_id, name)`
(migrations not under src/). -/
def Catalog.insertEposide (c : Catalog) (comic_id : Nat) (name : String) :
    Option (Episode × Catalog) :=
  if c.eposides.any (fun x => x.comic_id == comic_id && x.name == name) then none
  else
    let row : Episode := ⟨freshId (c.eposides.map (·.id)), name, comic_id⟩
    some (row, { c with eposides := c.eposides ++ [row] })

/-- Modelled from the spec: `files` unique by `(episode_id, name)`
(migrations not under src/).  `NewFile` inserts with `content_hash = ""`;
`access_count` takes the column default 0. -/
def Catalog.insertFile (c : Catalog) (eposid_id : Nat) (name : String) :
    Option (File × Catalog) :=
  if c.files.any (fun x => x.eposid_id == eposid_id && x.name == name) then none
  else
    let row : File := ⟨freshId (c.files.map (·.id)), name, "", eposid_id, 0⟩
    some (row, { c with files := c.files ++ [row] })

/-- `taggables` has no unique constraint; the insert always succeeds.
`Taggable::comic(tag_id, comic_id)` builds
`NewTaggable { tag_id, taggable_id: comic_id, taggable_type: "comic" }`. -/
def Catalog.taggableComic (c : Catalog) (tag_id comic_id : Nat) :
    Taggable × Catalog :=
  let row : Taggable :=
    ⟨freshId (c.taggables.map (·.id)), tag_id, comic_id, "comic"⟩
  (row, { c with taggables := c.taggables ++ [row] })

/-! ## The `Taggables` projection (models.rs) -/

/-- `enum Taggables`: a taggable row joined with its target entity and the
synthetic entry name. -/
inductive Taggables where
  | comicT (id : Nat) (comic : Comic) (name : String)
  | episodeT (id : Nat) (episode : Episode) (name : String)
  | fileT (id : Nat) (file : File) (name : String)
deriving DecidableEq, Repr

/-- `Taggables::from_taggable`: join one `taggables` row with its target;
rows whose `taggable_type` fails to parse, or whose target is missing,
yield `none`. -/
def Taggables.fromTaggable (c : Catalog) (t : Taggable) : Option Taggables :=
  if t.taggable_type == "comic" then
    (c.comics.find? (fun x => x.id == t.taggable_id)).map fun comic =>
      .comicT t.id comic comic.name
  else if t.taggable_type == "eposide" then do
    let episode ← c.eposides.find? (fun x => x.id == t.taggable_id)
    let comic ← Comic.findRow episode.comic_id c
    pure (.episodeT t.id episode (comic.name ++ "_" ++ episode.name))
  else if t.taggable_type == "file" then do
    let file ← c.files.find? (fun x => x.id == t.taggable_id)
    let episode ← Episode.findRow file.eposid_id c
    let comic ← Comic.findRow episode.comic_id c
    pure (.fileT t.id file
      (comic.name ++ "_" ++ episode.name ++ "_" ++ file.name))
  else none

/-- `Taggables::taggables(tag_id)`: all joined taggables of one tag
(database errors yield the empty list; `dbOk` is threaded by callers). -/
def Taggables.taggables (tag_id : Nat) (c : Catalog) : List Taggables :=
  (c.taggables.filter (fun x => x.tag_id == tag_id)).filterMap
    (Taggables.fromTaggable c)

/-! ## FUSE attribute replies and the blob pool -/

/-- `fuse::FileType` (only the variants the code produces). -/
inductive FileType where
  | Directory
  | RegularFile
  | Symlink
deriving DecidableEq, Repr

/-- `fuse::FileAttr`; `SystemTime` is seconds since the epoch
(`UNIX_EPOCH` = 0). -/
structure FileAttr where
  ino : Nat
  size : Nat
  blocks : Nat
  atime : Nat
  mtime : Nat
  ctime : Nat
  crtime : Nat
  kind : FileType
  perm : Nat
  nlink : Nat
  uid : Nat
  gid : Nat
  rdev : Nat
  flags : Nat
deriving DecidableEq, Repr

/-- `ROOT_DIR_ATTR`. -/
def ROOT_DIR_ATTR : FileAttr :=
  ⟨1, 0, 0, 0, 0, 0, 0, .Directory, 0o755, 2, 1000, 1000, 0, 0⟩

/-- `SPECIAL_DIR_ATTRS[0]` (`/comics`, inode 2). -/
def COMICS_DIR_ATTR : FileAttr :=
  ⟨2, 0, 0, 0, 0, 0, 0, .Directory, 0o755, 2, 1000, 1000, 0, 0⟩

/-- `SPECIAL_DIR_ATTRS[1]` (`/tags`, inode 3). -/
def TAGS_DIR_ATTR : FileAttr :=
  ⟨3, 0, 0, 0, 0, 0, 0, .Directory, 0o755, 2, 1000, 1000, 0, 0⟩

/-- `directory_attr(inode)`. -/
def directoryAttr (ino : Nat) : FileAttr :=
  ⟨ino, 0, 0, 0, 0, 0, 0, .Directory, 0o755, 2, 1000, 1000, 0, 0⟩

/-- `symlink_attr(inode, size)`. -/
def symlinkAttr (ino : Nat) (size : Nat) : FileAttr :=
  ⟨ino, size, 0, 0, 0, 0, 0, .Symlink, 0o755, 1, 1000, 1000, 0, 0⟩

/-- `file_attr(inode)` (the synthetic size-0 attribute). -/
def fileAttr (ino : Nat) : FileAttr :=
  ⟨ino, 0, 0, 0, 0, 0, 0, .RegularFile, 0o644, 2, 1000, 1000, 0, 0⟩

/-- The `std::fs::FileType` of a host file, as `convert_file_type`
distinguishes it (`other` is the `unreachable!` arm). -/
inductive HostFileType where
  | dir
  | file
  | symlink
  | other
deriving DecidableEq, Repr

/-- A host file in the blob pool: its bytes and the `fs::Metadata` fields
`convert_meta_to_attr` reads.  `len` is `content.length`. -/
structure Blob where
  content : List Nat
  mode : Nat
  uid : Nat
  gid : Nat
  blocks : Nat
  accessed : Nat
  created : Nat
  modified : Nat
  ftype : HostFileType
deriving DecidableEq, Repr

/-- The blob pool directory: created directories and regular files, keyed
by component-list paths. -/
structure BlobStore where
  dirs : List (List String)
  blobs : List (List String × Blob)
deriving DecidableEq, Repr

def BlobStore.lookup (st : BlobStore) (p : List String) : Option Blob :=
  (st.blobs.find? (fun e => e.1 == p)).map (·.2)

/-- `fs::create_dir_all` on an existing directory is a no-op. -/
def BlobStore.createDirAll (st : BlobStore) (p : List String) : BlobStore :=
  if st.dirs.contains p then st else { st with dirs := st.dirs ++ [p] }

/-- `fs::File::create`: truncate an existing file, or create a fresh one
whose metadata (`meta`) the host assigns. -/
def BlobStore.createFile (st : BlobStore) (p : List String) (meta : Blob) :
    BlobStore :=
  if (st.lookup p).isSome then
    { st with blobs := st.blobs.map fun e =>
        if e.1 == p then (e.1, { e.2 with content := [] }) else e }
  else { st with blobs := st.blobs ++ [(p, { meta with content := [] })] }

/-- `pwrite` semantics of `write_at`: zero-fill up to `off`, then splice
`data` over the existing bytes. -/
def writeAt (content : List Nat) (off : Nat) (data : List Nat) : List Nat :=
  let padded := content ++ List.replicate (off - content.length) 0
  padded.take off ++ data ++ padded.drop (off + data.length)

/-- Apply `write_at` to the blob stored at `p`. -/
def BlobStore.writeBlobAt (st : BlobStore) (p : List String) (off : Nat)
    (data : List Nat) : BlobStore :=
  { st with blobs := st.blobs.map fun e =>
      if e.1 == p then (e.1, { e.2 with content := writeAt e.2.content off data })
      else e }

/-- `ftruncate(fd, size)` on the byte list: cut, or zero-extend past the
end. -/
def truncContent (c : List Nat) (size : Nat) : List Nat :=
  c.take size ++ List.replicate (size - c.length) 0

/-- Apply `ftruncate` to the blob stored at `p`. -/
def BlobStore.truncateBlob (st : BlobStore) (p : List String) (size : Nat) :
    BlobStore :=
  { st with blobs := st.blobs.map fun e =>
      if e.1 == p then (e.1, { e.2 with content := truncContent e.2.content size })
      else e }

/-- `convert_meta_to_attr(ino, meta)`.  `none` models the panics inside it:
`cast::u16(meta.mode()).unwrap()` for modes ≥ 2^16 and the `unreachable!`
in `convert_file_type`. -/
def convertMetaToAttr (ino : Nat) (b : Blob) : Option FileAttr :=
  let kind : Option FileType :=
    match b.ftype with
    | .dir => some .Directory
    | .file => some .RegularFile
    | .symlink => some .Symlink
    | .other => none
  kind.bind fun k =>
    if b.mode < 2 ^ 16 then
      some ⟨ino, b.content.length, b.blocks, b.accessed, b.created, b.modified,
        0, k, b.mode, 1, b.uid, b.gid, 0, 0⟩
    else none

/-- `generate_storage_path(content_hash)`: `<STORAGE_BASE>/<hash[0..2]>/<hash>`.
`none` models the panic of the byte slice `&content_hash[0..2]` when the
hash is shorter than two bytes (hashes are ASCII hex at every call site, so
character and byte counts agree). -/
def generateStoragePath (storageBase : String) (h : String) :
    Option (List String) :=
  if 2 ≤ h.length then some [storageBase, h.take 2, h] else none

/-- The filesystem state: `base` is `ComicFS.base` (the canonicalized mount
point pushed by `resolve_inode`), `sb` is `STORAGE_BASE` (from
`FILES_PATH`), `freshMeta` the host metadata newly created files get. -/
structure FS where
  base : String
  sb : String
  cat : Catalog
  store : BlobStore
  freshMeta : Blob
deriving DecidableEq, Repr

/-- `i32::try_from(n).unwrap()` on a `u64`: `none` is the panic. -/
def toI32 (n : Nat) : Option Nat := if n < 2 ^ 31 then some n else none

/-- The errno values fs.rs surfaces. -/
inductive Errno where
  | ENOENT
  | EISDIR
  | ENOTDIR
  | EPERM
  | EINVAL
  | ENOSYS
  | EIO
deriving DecidableEq, Repr

/-- Outcome of one request: a reply value, an errno reply, or a Rust panic
(`crash`: `unwrap`, `expect`, `todo!`, `unreachable!`, slice bounds). -/
inductive FRes (α : Type) where
  | ok (a : α)
  | err (e : Errno)
  | crash
deriving DecidableEq, Repr

def FRes.isOk : FRes α → Bool
  | .ok _ => true
  | _ => false

def FRes.map (f : α → β) : FRes α → FRes β
  | .ok a => .ok (f a)
  | .err e => .err e
  | .crash => .crash

/-! ## Path engine: `ComicFS::resolve` and `ComicFS::resolve_inode` -/

/-- Result of forward resolution. -/
inductive RRes where
  | ino (i : Nat)
  | notFound
  | crash
deriving DecidableEq, Repr

/-- The loop body chain of `ComicFS::resolve`, one recursive call per path
component; `parent` starts at inode 1.  The `unreachable!` at the root for
components other than `"comics"`/`"tags"`, the `todo!` under `Tag`, and the
`unreachable!` under `File`/`Tagged` are `crash`. -/
def resolveGo (s : FS) (parent : Nat) : List String → RRes
  | [] => .ino parent
  | comp :: rest =>
    match kindOf parent with
    | .Special =>
      if parent = 1 then
        if comp = "comics" then resolveGo s 2 rest
        else if comp = "tags" then resolveGo s 3 rest
        else .crash
      else if parent = 2 then
        match Comic.findByName comp s.cat with
        | some info => resolveGo s (comicIno info.id) rest
        | none => .notFound
      else if parent = 3 then
        match Tag.findByName comp s.cat with
        | some info => resolveGo s (tagIno info.id) rest
        | none => .notFound
      else .crash
    | .Comic =>
      match toI32 (idOf parent) with
      | none => .crash
      | some pid =>
        match Episode.findByComicAndName pid comp s.cat with
        | some info => resolveGo s (eposideIno info.id) rest
        | none => .notFound
    | .Eposide =>
      match toI32 (idOf parent) with
      | none => .crash
      | some pid =>
        match File.findByEposideAndName pid comp s.cat with
        | some info => resolveGo s (fileIno info.id) rest
        | none => .notFound
    | .Tag => .crash
    | .File => .crash
    | .Tagged => .crash

/-- `ComicFS::resolve(path)`: walk the components from the root inode. -/
def resolveF (s : FS) (p : List String) : RRes := resolveGo s 1 p

/-- Result of reverse resolution: a path, a missing catalog row (an early
`None` return), or a panic. -/
inductive PRes where
  | found (p : List String)
  | missing
  | crash
deriving DecidableEq, Repr

def PRes.mapP (f : List String → List String) : PRes → PRes
  | .found p => .found (f p)
  | .missing => .missing
  | .crash => .crash

/-- The child→parent loop of `ComicFS::resolve_inode`, fuel-bounded.  The
kind ladder File → Eposide → Comic → inode 2 → inode 1 (and Tag → inode 3)
strictly descends, so the source's unbounded loop performs at most five
iterations; fuel 5 therefore never runs out (fuel exhaustion is `crash` and
is proved unreachable by the per-kind evaluation lemmas below).  The `todo!`
for `Tagged` and the `unreachable!` for unknown special inodes are `crash`. -/
def resolveInodeStep (s : FS) (go : Nat → PRes) (ino : Nat) : PRes :=
    match kindOf ino with
    | .Special =>
      if ino = 1 then .found [s.base]
      else if ino = 2 then
        (go 1).mapP (· ++ ["comics"])
      else if ino = 3 then
        (go 1).mapP (· ++ ["tags"])
      else .crash
    | .Comic =>
      match toI32 (idOf ino) with
      | none => .crash
      | some iid =>
        match Comic.findRow iid s.cat with
        | none => .missing
        | some info => (go 2).mapP (· ++ [info.name])
    | .Eposide =>
      match toI32 (idOf ino) with
      | none => .crash
      | some iid =>
        match Episode.findRow iid s.cat with
        | none => .missing
        | some info =>
          (go (comicIno info.comic_id)).mapP (· ++ [info.name])
    | .File =>
      match toI32 (idOf ino) with
      | none => .crash
      | some iid =>
        match File.findRow iid s.cat with
        | none => .missing
        | some info =>
          (go (eposideIno info.eposid_id)).mapP
            (· ++ [info.name])
    | .Tag =>
      match toI32 (idOf ino) with
      | none => .crash
      | some iid =>
        match Tag.findRow iid s.cat with
        | none => .missing
        | some info => (go 3).mapP (· ++ [info.name])
    | .Tagged => .crash

def resolveInodeGo (s : FS) : Nat → Nat → PRes
  | 0, _ => .crash
  | fuel + 1, ino => resolveInodeStep s (resolveInodeGo s fuel) ino

/-- `ComicFS::resolve_inode(ino)`. -/
def resolveInodeF (s : FS) (ino : Nat) : PRes := resolveInodeGo s 5 ino

/-- A component list rendered as the `OsStr` of the collected `PathBuf`
(`base` is itself the first component and is an absolute path). -/
def pathString (comps : List String) : String :=
  String.intercalate "/" comps

/-- `path.as_os_str().len()`: length in bytes. -/
def pathLen (comps : List String) : Nat := (pathString comps).utf8ByteSize

/-! ## FUSE operation handlers (impl Filesystem for ComicFS) -/

/-- Accessors of the `Taggables` projection used by `lookup`/`readdir`:
the `id` field is the `taggables` row id. -/
def Taggables.rowId : Taggables → Nat
  | .comicT id _ _ => id
  | .episodeT id _ _ => id
  | .fileT id _ _ => id

def Taggables.entryName : Taggables → String
  | .comicT _ _ n => n
  | .episodeT _ _ n => n
  | .fileT _ _ n => n

/-- The inode `lookup` reverse-resolves for a matching tagged entry: note
the source passes the taggable row id (`id`), not the target's catalog id,
to the target-kind constructor. -/
def Taggables.lookupTargetIno : Taggables → Nat
  | .comicT id _ _ => comicIno id
  | .episodeT id _ _ => eposideIno id
  | .fileT id _ _ => fileIno id

/-- `ComicFS::lookup(parent, name)`. -/
def lookupF (s : FS) (parent : Nat) (name : String) : FRes FileAttr :=
  if parent = 1 then
    if name = "comics" then .ok COMICS_DIR_ATTR
    else if name = "tags" then .ok TAGS_DIR_ATTR
    else .err .ENOENT
  else if parent = 2 then
    match Comic.findByName name s.cat with
    | some info => .ok (directoryAttr (comicIno info.id))
    | none => .err .ENOENT
  else if parent = 3 then
    match Tag.findByName name s.cat with
    | some info => .ok (directoryAttr (tagIno info.id))
    | none => .err .ENOENT
  else
    match kindOf parent with
    | .Comic =>
      match toI32 (idOf parent) with
      | none => .crash
      | some pid =>
        match Episode.findByComicAndName pid name s.cat with
        | some info => .ok (directoryAttr (eposideIno info.id))
        | none => .err .ENOENT
    | .Eposide =>
      match toI32 (idOf parent) with
      | none => .crash
      | some pid =>
        match File.findByEposideAndName pid name s.cat with
        | none => .err .ENOENT
        | some info =>
          if info.content_hash = "" then .ok (fileAttr (fileIno info.id))
          else
            match generateStoragePath s.sb info.content_hash with
            | none => .crash
            | some path =>
              match s.store.lookup path with
              | none => .err .ENOENT
              | some meta =>
                match convertMetaToAttr (fileIno info.id) meta with
                | some attr => .ok attr
                | none => .crash
    | .Special => .crash
    | .File => .crash
    | .Tagged => .crash
    | .Tag =>
      match toI32 (idOf parent) with
      | none => .crash
      | some tid =>
        match (Taggables.taggables tid s.cat).find?
            (fun f => f.entryName == name) with
        | none => .err .ENOENT
        | some f =>
          match resolveInodeF s f.lookupTargetIno with
          | .found path => .ok (symlinkAttr (taggedIno f.rowId) (pathLen path))
          | _ => .crash

/-- `ComicFS::getattr(ino)`. -/
def getattrF (s : FS) (ino : Nat) : FRes FileAttr :=
  if ino = 1 then .ok ROOT_DIR_ATTR
  else if ino = 2 then .ok COMICS_DIR_ATTR
  else if ino = 3 then .ok TAGS_DIR_ATTR
  else
    match kindOf ino with
    | .Comic =>
      match toI32 (idOf ino) with
      | none => .crash
      | some iid =>
        match Comic.findRow iid s.cat with
        | some info => .ok (directoryAttr (comicIno info.id))
        | none => .err .ENOENT
    | .Eposide =>
      match toI32 (idOf ino) with
      | none => .crash
      | some iid =>
        match Episode.findRow iid s.cat with
        | some info => .ok (directoryAttr (eposideIno info.id))
        | none => .err .ENOENT
    | .File =>
      match toI32 (idOf ino) with
      | none => .crash
      | some iid =>
        match File.findRow iid s.cat with
        | none => .err .ENOENT
        | some info =>
          if info.content_hash = "" then .ok (fileAttr (fileIno info.id))
          else
            match generateStoragePath s.sb info.content_hash with
            | none => .crash
            | some path =>
              match s.store.lookup path with
              | none => .err .ENOENT
              | some meta =>
                match convertMetaToAttr (fileIno info.id) meta with
                | some attr => .ok attr
                | none => .crash
    | .Tag =>
      match toI32 (idOf ino) with
      | none => .crash
      | some iid =>
        match Tag.findRow iid s.cat with
        | some info => .ok (directoryAttr (tagIno info.id))
        | none => .err .ENOENT
    | .Tagged =>
      match toI32 (idOf ino) with
      | none => .crash
      | some iid =>
        match Taggable.findRow iid s.cat with
        | none => .err .ENOENT
        | some info =>
          match (if info.taggable_type = "comic" then
              some (comicIno info.taggable_id)
            else if info.taggable_type = "eposide" then
              some (eposideIno info.taggable_id)
            else if info.taggable_type = "file" then
              some (fileIno info.taggable_id)
            else none) with
          | none => .crash
          | some t =>
            match resolveInodeF s t with
            | .found path => .ok (symlinkAttr ino (pathLen path))
            | _ => .crash
    | .Special => .crash

/-- One entry handed to `reply.add(ino, offset, kind, name)`. -/
structure DirEntry where
  ino : Nat
  off : Nat
  ftype : FileType
  name : String
deriving DecidableEq, Repr

/-- `ComicFS::readdir(ino, offset)`.  `dbOk` models whether the diesel
`load` queries succeed; on failure every branch swallows the error
(`if let Ok` / `.ok()` / `unwrap_or_else(Vec::new)`) and still replies
`reply.ok()`. -/
def readdirF (s : FS) (dbOk : Bool) (ino : Nat) (offset : Int) :
    FRes (List DirEntry) :=
  if ino = 1 then
    .ok (if offset = 0 then
      [⟨1, 1, .Directory, "."⟩, ⟨1, 2, .Directory, ".."⟩,
       ⟨2, 3, .Directory, "comics"⟩, ⟨3, 4, .Directory, "tags"⟩]
    else [])
  else if ino = 2 then
    .ok (if offset = 0 then
      if dbOk then
        s.cat.comics.enum.map fun (i, c) =>
          ⟨comicIno c.id, i + 1, .Directory, c.name⟩
      else []
    else [])
  else if ino = 3 then
    .ok (if offset = 0 then
      if dbOk then
        (Tag.list s.cat).enum.map fun (i, t) =>
          ⟨tagIno t.id, i + 1, .Directory, t.name⟩
      else []
    else [])
  else
    match kindOf ino with
    | .Comic =>
      if offset = 0 then
        match toI32 (idOf ino) with
        | none => .crash
        | some iid =>
          .ok (if dbOk then
            (s.cat.eposides.filter (fun e => e.comic_id == iid)).enum.map
              fun (i, e) => ⟨eposideIno e.id, i + 1, .Directory, e.name⟩
          else [])
      else .ok []
    | .Eposide =>
      if offset = 0 then
        match toI32 (idOf ino) with
        | none => .crash
        | some iid =>
          .ok (if dbOk then
            (s.cat.files.filter (fun f => f.eposid_id == iid)).enum.map
              fun (i, f) => ⟨fileIno f.id, i + 1, .RegularFile, f.name⟩
          else [])
      else .ok []
    | .Tag =>
      if offset = 0 then
        match toI32 (idOf ino) with
        | none => .crash
        | some iid =>
          .ok (if dbOk then
            (Taggables.taggables iid s.cat).enum.map fun (i, t) =>
              ⟨taggedIno t.rowId, i + 1, .Symlink, t.entryName⟩
          else [])
      else .ok []
    | .File => .crash
    | .Special => .crash
    | .Tagged => .crash

/-- `ComicFS::read(ino, offset, size)`.  Opening a missing blob yields the
empty data reply; `pread` on a present blob returns the bytes at the
offset (host I/O errors, the `EIO` arm, have no counterpart in the pure
pool model). -/
def readF (s : FS) (ino : Nat) (offset size : Nat) : FRes (List Nat) :=
  if kindOf ino ≠ .File then .err .EISDIR
  else
    match toI32 (idOf ino) with
    | none => .crash
    | some iid =>
      match File.findRow iid s.cat with
      | none => .err .ENOENT
      | some info =>
        match generateStoragePath s.sb info.content_hash with
        | none => .crash
        | some path =>
          match s.store.lookup path with
          | none => .ok []
          | some blob => .ok ((blob.content.drop offset).take size)

/-- `ComicFS::mkdir(parent, name)`.  A failed insert hits
`.expect("Fail to insert")`: `crash`. -/
def mkdirF (s : FS) (parent : Nat) (name : String) : FRes FileAttr × FS :=
  match kindOf parent with
  | .Special =>
    if parent = 1 then (.err .EPERM, s)
    else if parent = 2 then
      match s.cat.insertComic name with
      | none => (.crash, s)
      | some (row, cat') =>
        (.ok (directoryAttr (comicIno row.id)), { s with cat := cat' })
    else if parent = 3 then
      match s.cat.insertTag name with
      | none => (.crash, s)
      | some (row, cat') =>
        (.ok (directoryAttr (tagIno row.id)), { s with cat := cat' })
    else (.crash, s)
  | .Comic =>
    match toI32 (idOf parent) with
    | none => (.crash, s)
    | some pid =>
      match s.cat.insertEposide pid name with
      | none => (.crash, s)
      | some (row, cat') =>
        (.ok (directoryAttr (eposideIno row.id)), { s with cat := cat' })
  | .Eposide => (.err .EPERM, s)
  | .Tag => (.err .EPERM, s)
  | .File => (.err .ENOTDIR, s)
  | .Tagged => (.err .ENOTDIR, s)

/-- `ComicFS::link(ino, newparent, newname)`.  The `Comic` arm calls
`Taggable::comic(ino.id(), tag_ino.id(), ..)` — the source inode's id in
the `tag_id` position and the new parent's id in the `comic_id`
(`taggable_id`) position — and replies `directory_attr(ino)` for the
source inode.  `Eposide`/`File` sources are `todo!`, `Tagged` is
`unreachable!`. -/
def linkF (s : FS) (ino newparent : Nat) (_newname : String) :
    FRes FileAttr × FS :=
  match kindOf ino with
  | .Special => (.err .EPERM, s)
  | .Tag => (.err .EPERM, s)
  | .Comic =>
    match toI32 (idOf ino), toI32 (idOf newparent) with
    | some iid, some pid =>
      let (_, cat') := s.cat.taggableComic iid pid
      (.ok (directoryAttr ino), { s with cat := cat' })
    | _, _ => (.crash, s)
  | .Eposide => (.crash, s)
  | .File => (.crash, s)
  | .Tagged => (.crash, s)

/-- `ComicFS::create(parent, name, mode, flags)`: the parent must be an
Episode (`EPERM` otherwise); insert a `File` with empty `content_hash` and
reply its synthetic attributes.  A failed insert is the source's
`.unwrap()` panic. -/
def createF (s : FS) (parent : Nat) (name : String) : FRes FileAttr × FS :=
  if kindOf parent ≠ .Eposide then (.err .EPERM, s)
  else
    match toI32 (idOf parent) with
    | none => (.crash, s)
    | some pid =>
      match s.cat.insertFile pid name with
      | none => (.crash, s)
      | some (row, cat') =>
        (.ok (fileAttr (fileIno row.id)), { s with cat := cat' })

/-- `ComicFS::setattr(ino, size?, ..)`: non-File inodes get `ENOSYS`, a
missing row `ENOENT`; an empty `content_hash` replies the synthetic
attributes unchanged; otherwise open the blob for writing (`ENOENT` when
the blob file is absent), `ftruncate` it when `size` is present (the
source's `i64::try_from(size).unwrap()` panics for sizes ≥ 2^63), then
re-stat the blob and reply `convert_meta_to_attr` of its metadata.  The
mode/uid/gid/time arguments are ignored by the source and therefore not
modelled. -/
def setattrF (s : FS) (ino : Nat) (size : Option Nat) : FRes FileAttr × FS :=
  if kindOf ino ≠ .File then (.err .ENOSYS, s)
  else
    match toI32 (idOf ino) with
    | none => (.crash, s)
    | some iid =>
      match File.findRow iid s.cat with
      | none => (.err .ENOENT, s)
      | some info =>
        if info.content_hash = "" then (.ok (fileAttr ino), s)
        else
          match generateStoragePath s.sb info.content_hash with
          | none => (.crash, s)
          | some path =>
            match s.store.lookup path with
            | none => (.err .ENOENT, s)
            | some blob0 =>
              match size with
              | none =>
                -- no truncation: the re-stat reads the unchanged blob
                match convertMetaToAttr ino blob0 with
                | some attr => (.ok attr, s)
                | none => (.crash, s)
              | some sz =>
                if 2 ^ 63 ≤ sz then (.crash, s)
                else
                  match (s.store.truncateBlob path sz).lookup path with
                  | none =>
                    (.crash, { s with store := s.store.truncateBlob path sz })
                  | some blob =>
                    match convertMetaToAttr ino blob with
                    | some attr =>
                      (.ok attr, { s with store := s.store.truncateBlob path sz })
                    | none =>
                      (.crash, { s with store := s.store.truncateBlob path sz })

/-- A symlink target as the kernel hands it to `symlink`: an absolute
path, or one relative to the link's parent directory. -/
inductive LinkTarget where
  | abs (comps : List String)
  | rel (comps : List String)
deriving DecidableEq, Repr

/-- `path_clean::PathClean::clean` applied to the joined (absolute)
component list: drop `"."`, let `".."` pop the previous component. -/
def cleanComps (l : List String) : List String :=
  l.foldl (fun acc c =>
    if c = "." then acc
    else if c = ".." then acc.dropLast
    else acc ++ [c]) []

/-- `ComicFS::symlink(parent, name, link)`: the parent must be a Tag
(`EPERM` otherwise).  An absolute target is used as-is; a relative one is
joined onto the reverse-resolved parent path and cleaned.  The target is
then stripped of the base (`strip_prefix(..).unwrap()` panics when the
base is not a prefix) and forward-resolved (`EPERM` on not-found).
Comic targets insert a `Taggable` via the same swapped
`Taggable::comic(ino.id(), tag_ino.id(), ..)` call as `link`, then reply
symlink attributes of `Inode::tagged(row.id)` sized by reverse-resolving
`Inode::comic(row.id)` — again the taggable row id.  Special, Tag and
Tagged targets get `EPERM`; Episode and File targets are `todo!`. -/
def symlinkF (s : FS) (parent : Nat) (link : LinkTarget) :
    FRes FileAttr × FS :=
  if kindOf parent ≠ .Tag then (.err .EPERM, s)
  else
    match (match link with
      | .abs comps => PRes.found comps
      | .rel comps =>
        match resolveInodeF s parent with
        | .found pp => .found (cleanComps (pp ++ comps))
        | .missing => .missing
        | .crash => .crash) with
    | .missing => (.err .ENOENT, s)
    | .crash => (.crash, s)
    | .found path =>
      match path with
      | [] => (.crash, s)
      | b :: target =>
        if b = s.base then
          match resolveF s target with
          | .notFound => (.err .EPERM, s)
          | .crash => (.crash, s)
          | .ino ino =>
            match kindOf ino with
            | .Special => (.err .EPERM, s)
            | .Tag => (.err .EPERM, s)
            | .Tagged => (.err .EPERM, s)
            | .Eposide => (.crash, s)
            | .File => (.crash, s)
            | .Comic =>
              match toI32 (idOf ino), toI32 (idOf parent) with
              | some iid, some pid =>
                match resolveInodeF
                    { s with cat := (s.cat.taggableComic iid pid).2 }
                    (comicIno (s.cat.taggableComic iid pid).1.id) with
                | .found tpath =>
                  (.ok (symlinkAttr (taggedIno (s.cat.taggableComic iid pid).1.id)
                      (pathLen tpath)),
                   { s with cat := (s.cat.taggableComic iid pid).2 })
                | .missing =>
                  (.crash, { s with cat := (s.cat.taggableComic iid pid).2 })
                | .crash =>
                  (.crash, { s with cat := (s.cat.taggableComic iid pid).2 })
              | _, _ => (.crash, s)
        else (.crash, s)

/-! ## SHA-256 (`Sha256::digest`) and lowercase hex (`hex::encode`)

The source delegates to the `sha2` and `hex` crates; the functions below
are the FIPS 180-4 SHA-256 over byte lists, with 32-bit words as `Nat`
reduced mod `2^32`. -/

namespace Sha

def M32 : Nat := 2 ^ 32

def add32 (a b : Nat) : Nat := (a + b) % M32

def rotr (n x : Nat) : Nat := (x >>> n) ||| ((x <<< (32 - n)) % M32)

def not32 (x : Nat) : Nat := x ^^^ (M32 - 1)

def smallSigma0 (x : Nat) : Nat := rotr 7 x ^^^ rotr 18 x ^^^ (x >>> 3)

def smallSigma1 (x : Nat) : Nat := rotr 17 x ^^^ rotr 19 x ^^^ (x >>> 10)

def bigSigma0 (x : Nat) : Nat := rotr 2 x ^^^ rotr 13 x ^^^ rotr 22 x

def bigSigma1 (x : Nat) : Nat := rotr 6 x ^^^ rotr 11 x ^^^ rotr 25 x

def chF (e f g : Nat) : Nat := (e &&& f) ^^^ (not32 e &&& g)

def majF (a b c : Nat) : Nat := (a &&& b) ^^^ (a &&& c) ^^^ (b &&& c)

/-- The eight working registers. -/
structure Regs where
  a : Nat
  b : Nat
  c : Nat
  d : Nat
  e : Nat
  f : Nat
  g : Nat
  h : Nat
deriving DecidableEq, Repr

/-- The eight initial hash words of FIPS 180-4 §5.3.3 (decimal). -/
def H0 : Regs :=
  ⟨1779033703, 3144134277, 1013904242, 2773480762,
   1359893119, 2600822924, 528734635, 1541459225⟩

/-- The 64 round constants of FIPS 180-4 §4.2.2 (decimal). -/
def K : List Nat :=
  [1116352408, 1899447441, 3049323471, 3921009573, 961987163,
   1508970993, 2453635748, 2870763221, 3624381080, 310598401,
   607225278, 1426881987, 1925078388, 2162078206, 2614888103,
   3248222580, 3835390401, 4022224774, 264347078, 604807628,
   770255983, 1249150122, 1555081692, 1996064986, 2554220882,
   2821834349, 2952996808, 3210313671, 3336571891, 3584528711,
   113926993, 338241895, 666307205, 773529912, 1294757372,
   1396182291, 1695183700, 1986661051, 2177026350, 2456956037,
   2730485921, 2820302411, 3259730800, 3345764771, 3516065817,
   3600352804, 4094571909, 275423344, 430227734, 506948616,
   659060556, 883997877, 958139571, 1322822218, 1537002063,
   1747873779, 1955562222, 2024104815, 2227730452, 2361852424,
   2428436474, 2756734187, 3204031479, 3329325298]

/-- One compression round with the round constant already added to the
schedule word. -/
def round (st : Regs) (kw : Nat) : Regs :=
  let t1 := add32 (add32 st.h (bigSigma1 st.e)) (add32 (chF st.e st.f st.g) kw)
  let t2 := add32 (bigSigma0 st.a) (majF st.a st.b st.c)
  ⟨add32 t1 t2, st.a, st.b, st.c, add32 st.d t1, st.e, st.f, st.g⟩

/-- Append `n` schedule words to the 16 block words. -/
def extendWords : Nat → List Nat → List Nat
  | 0, ws => ws
  | n + 1, ws =>
    let L := ws.length
    let w := add32
      (add32 (ws.getD (L - 16) 0) (smallSigma0 (ws.getD (L - 15) 0)))
      (add32 (ws.getD (L - 7) 0) (smallSigma1 (ws.getD (L - 2) 0)))
    extendWords n (ws ++ [w])

def addRegs (x y : Regs) : Regs :=
  ⟨add32 x.a y.a, add32 x.b y.b, add32 x.c y.c, add32 x.d y.d,
   add32 x.e y.e, add32 x.f y.f, add32 x.g y.g, add32 x.h y.h⟩

/-- Big-endian 32-bit words from a 64-byte block. -/
def blockWords (blk : List Nat) : List Nat :=
  (List.range 16).map fun i =>
    blk.getD (4 * i) 0 * 2 ^ 24 + blk.getD (4 * i + 1) 0 * 2 ^ 16 +
      blk.getD (4 * i + 2) 0 * 2 ^ 8 + blk.getD (4 * i + 3) 0

def compress (st : Regs) (blk : List Nat) : Regs :=
  let ws := extendWords 48 (blockWords blk)
  let final := (K.zip ws).foldl (fun r (kw : Nat × Nat) =>
    round r (add32 kw.1 kw.2)) st
  addRegs st final

/-- Big-endian byte encoding of a 64-bit length. -/
def be64 (n : Nat) : List Nat :=
  [(n >>> 56) % 256, (n >>> 48) % 256, (n >>> 40) % 256, (n >>> 32) % 256,
   (n >>> 24) % 256, (n >>> 16) % 256, (n >>> 8) % 256, n % 256]

/-- FIPS 180-4 padding: `0x80`, zeros to 56 mod 64, 64-bit bit length. -/
def padMsg (msg : List Nat) : List Nat :=
  let L := msg.length
  let z := (64 + 56 - (L + 1) % 64) % 64
  msg ++ [0x80] ++ List.replicate z 0 ++ be64 (8 * L)

/-- Split into 64-byte blocks; the fuel (one unit per block, so the input
length suffices) keeps the recursion structural. -/
def chunks64Go : Nat → List Nat → List (List Nat)
  | 0, _ => []
  | _, [] => []
  | n + 1, l => l.take 64 :: chunks64Go n (l.drop 64)

def chunks64 (l : List Nat) : List (List Nat) := chunks64Go l.length l

/-- Big-endian bytes of one 32-bit word. -/
def wordBytes (w : Nat) : List Nat :=
  [(w >>> 24) % 256, (w >>> 16) % 256, (w >>> 8) % 256, w % 256]

/-- SHA-256 digest (32 bytes) of a byte list. -/
def sha256 (msg : List Nat) : List Nat :=
  let final := (chunks64 (padMsg msg)).foldl compress H0
  wordBytes final.a ++ wordBytes final.b ++ wordBytes final.c ++
    wordBytes final.d ++ wordBytes final.e ++ wordBytes final.f ++
    wordBytes final.g ++ wordBytes final.h

end Sha

/-- `hex::encode`: two lowercase hex digits per byte
(`Nat.digitChar` yields `'0'`-`'9'`, `'a'`-`'f'`). -/
def hexEncode (bytes : List Nat) : String :=
  String.mk (bytes.flatMap fun b =>
    [Nat.digitChar (b / 16 % 16), Nat.digitChar (b % 16)])

/-- `ComicFS::write(ino, offset, data)`.  First write (empty
`content_hash`): hash the payload, record the hash, create the shard
directory and the blob, then `write_at`; later writes open the existing
blob (a missing blob is the `open(..).unwrap()` panic).  `write_at` on a
regular file writes the full buffer, so the reply is `data.length`. -/
def writeF (s : FS) (ino : Nat) (offset : Nat) (data : List Nat) :
    FRes Nat × FS :=
  if kindOf ino ≠ .File then (.err .EISDIR, s)
  else
    match toI32 (idOf ino) with
    | none => (.crash, s)
    | some iid =>
      match File.findRow iid s.cat with
      | none => (.err .ENOENT, s)
      | some info =>
        if info.content_hash = "" then
          let h := hexEncode (Sha.sha256 data)
          match generateStoragePath s.sb h with
          | none => (.crash, s)
          | some path =>
            let st1 := s.store.createDirAll path.dropLast
            let cat1 := s.cat.updateContentHash info.id h
            let st2 := st1.createFile path s.freshMeta
            let st3 := st2.writeBlobAt path offset data
            (.ok data.length, { s with cat := cat1, store := st3 })
        else
          match generateStoragePath s.sb info.content_hash with
          | none => (.crash, s)
          | some path =>
            if (s.store.lookup path).isSome then
              (.ok data.length, { s with store := s.store.writeBlobAt path offset data })
            else (.crash, s)

/-! ## Concrete states used by counterexamples and witnesses -/

/-- Host metadata newly created blob files receive in the examples:
`st_mode` of a regular `0644` file is `0o100644` (file-type bits
included). -/
def defaultBlob : Blob := ⟨[], 0o100644, 1000, 1000, 0, 0, 0, 0, .file⟩

def emptyCat : Catalog := ⟨[], [], [], [], []⟩

def emptyStore : BlobStore := ⟨[], []⟩

def mkFS (base sb : String) (cat : Catalog) (store : BlobStore) : FS :=
  ⟨base, sb, cat, store, defaultBlob⟩

def S1 : FS := mkFS "/mnt" "/pool" ⟨[⟨5, "Naruto"⟩], [], [], [⟨7, "fav"⟩], []⟩ emptyStore

def S2w : FS := mkFS "/mnt" "/pool" ⟨[], [], [⟨1, "f", "", 1, 0⟩], [], []⟩ emptyStore

def S3 : FS := mkFS "/mnt" "/pool" ⟨[], [], [⟨1, "f", "", 1, 0⟩], [], []⟩ emptyStore

def S4c : FS := mkFS "/mnt" "/pool" ⟨[⟨1, "N"⟩], [], [], [], []⟩ emptyStore

def S4w : FS := mkFS "/w" "/pool" ⟨[⟨1, "N"⟩], [], [], [], []⟩ emptyStore

def S5 : FS := mkFS "/b" "/pool" emptyCat emptyStore

def S6 : FS := mkFS "/b" "/pool"
  ⟨[⟨2, "N"⟩, ⟨10, "LONGNAME"⟩], [], [], [⟨1, "t"⟩], [⟨10, 1, 2, "comic"⟩]⟩
  emptyStore

/-- A 64-character content hash. -/
def H64 : String :=
  "aaaaaaaaaaaaaaaaaaaaaaaaaaaaaaaaaaaaaaaaaaaaaaaaaaaaaaaaaaaaaaaa"

def S8 : FS := mkFS "/mnt" "/pool" ⟨[], [], [⟨1, "pic", H64, 1, 0⟩], [], []⟩
  ⟨[["/pool", "aa"]],
   [(["/pool", "aa", H64], ⟨[104], 0o100644, 1000, 1000, 8, 0, 0, 0, .file⟩)]⟩

def S8w : FS := mkFS "/x" "/p" emptyCat emptyStore

def S9c : FS := mkFS "/mnt" "/pool" ⟨[⟨1, "A"⟩], [], [], [], []⟩ emptyStore

def S9w : FS := mkFS "/mnt" "/pool" emptyCat emptyStore

def Cat9w : Catalog := ⟨[⟨1, "A"⟩], [], [], [], []⟩

def S10w : FS := mkFS "/mnt" "/pool" emptyCat emptyStore

/-! ## Well-formedness of the catalog and invariants of forward resolution -/

/-- Primary-key discipline of one table: distinct ids, each fitting in an
`i32` (every id column is `Integer` in src/src/schema.rs). -/
def idsOK (ids : List Nat) : Prop := ids.Nodup ∧ ∀ x ∈ ids, x < 2 ^ 31

/-- The catalog invariants the reachability argument needs. -/
def CatalogWF (c : Catalog) : Prop :=
  idsOK (c.comics.map (·.id)) ∧ idsOK (c.eposides.map (·.id)) ∧
  idsOK (c.files.map (·.id)) ∧ idsOK (c.tags.map (·.id))

/-- Invariant of the `resolve` walk: the current inode together with the
reverse-resolved path accumulated so far. -/
def StateInv (s : FS) (parent : Nat) (acc : List String) : Prop :=
  (parent = 1 ∧ acc = [s.base]) ∨
  (parent = 2 ∧ acc = [s.base, "comics"]) ∨
  (parent = 3 ∧ acc = [s.base, "tags"]) ∨
  (∃ c, c ∈ s.cat.comics ∧ parent = comicIno c.id ∧
    acc = [s.base, "comics", c.name]) ∨
  (∃ c e, c ∈ s.cat.comics ∧ e ∈ s.cat.eposides ∧ e.comic_id = c.id ∧
    parent = eposideIno e.id ∧ acc = [s.base, "comics", c.name, e.name]) ∨
  (∃ c e f, c ∈ s.cat.comics ∧ e ∈ s.cat.eposides ∧ f ∈ s.cat.files ∧
    e.comic_id = c.id ∧ f.eposid_id = e.id ∧ parent = fileIno f.id ∧
    acc = [s.base, "comics", c.name, e.name, f.name]) ∨
  (∃ t, t ∈ s.cat.tags ∧ parent = tagIno t.id ∧ acc = [s.base, "tags", t.name])

/-- The uid/gid/mode discipline the spec asserts for attribute replies. -/
def hardcodedAttr (a : FileAttr) : Prop :=
  a.uid = 1000 ∧ a.gid = 1000 ∧
  (a.kind = .Directory → a.perm = 0o755) ∧
  (a.kind = .RegularFile → a.perm = 0o644) ∧
  (a.kind = .Symlink → a.perm = 0o755)

/-- An attribute whose uid/gid/mode were copied from a blob file's host
metadata by `convert_meta_to_attr`. -/
def blobMetaAttr (s : FS) (a : FileAttr) : Prop :=
  ∃ p b, s.store.lookup p = some b ∧ a.uid = b.uid ∧ a.gid = b.gid ∧
    a.perm = b.mode

/-! ## Bit-level facts about the inode codec -/

theorem testBit_high_false {x n j : Nat} (h : x < 2 ^ n) (hj : n ≤ j) :
    x.testBit j = false :=
  Nat.testBit_lt_two_pow
    (lt_of_lt_of_le h (Nat.pow_le_pow_right (by norm_num) hj))

theorem and_two_pow_eq (x i : Nat) :
    x &&& 2 ^ i = if x.testBit i then 2 ^ i else 0 := by
  apply Nat.eq_of_testBit_eq
  intro j
  rw [Nat.testBit_and]
  by_cases hij : i = j
  · subst hij
    cases h : x.testBit i <;> simp [h, Nat.testBit_two_pow_self]
  · rw [Nat.testBit_two_pow_of_ne hij]
    split <;> simp [Nat.testBit_two_pow_of_ne hij, Nat.zero_testBit]

theorem testBit_or_high {b id j : Nat} (hid : id < 2 ^ 59) (hj : 59 ≤ j) :
    (2 ^ b ||| id).testBit j = decide (b = j) := by
  rw [Nat.testBit_or, testBit_high_false hid hj, Bool.or_false,
    Nat.testBit_two_pow]

theorem or_and_marker {b c id : Nat} (hid : id < 2 ^ 59) (hc : 59 ≤ c) :
    (2 ^ b ||| id) &&& 2 ^ c = if b = c then 2 ^ c else 0 := by
  rw [and_two_pow_eq, testBit_or_high hid hc]
  by_cases h : b = c <;> simp [h]

theorem NODE_MASK_eq : NODE_MASK = 2 ^ 59 - 1 := by decide

theorem idOf_or {b id : Nat} (hid : id < 2 ^ 59) (hb : 59 ≤ b) :
    idOf (2 ^ b ||| id) = id := by
  unfold idOf
  rw [NODE_MASK_eq]
  apply Nat.eq_of_testBit_eq
  intro j
  rw [Nat.testBit_and, Nat.testBit_or, Nat.testBit_two_pow_sub_one]
  by_cases hj : j < 59
  · have hbj : b ≠ j := by omega
    simp [hj, Nat.testBit_two_pow_of_ne hbj]
  · simp [hj, testBit_high_false hid (by omega : 59 ≤ j)]

theorem IS_FILE_eq : IS_FILE = 2 ^ 63 := by decide
theorem IS_EPOSIDE_eq : IS_EPOSIDE = 2 ^ 62 := by decide
theorem IS_COMIC_eq : IS_COMIC = 2 ^ 61 := by decide
theorem IS_TAG_eq : IS_TAG = 2 ^ 60 := by decide
theorem IS_TAGGED_eq : IS_TAGGED = 2 ^ 59 := by decide

theorem kindOf_or {b id : Nat} (hid : id < 2 ^ 59) (hb : 59 ≤ b) (hb' : b < 64) :
    kindOf (2 ^ b ||| id) =
      (if b = 63 then .File else if b = 62 then .Eposide else if b = 61 then .Comic
       else if b = 60 then .Tag else .Tagged) := by
  unfold kindOf
  rw [IS_FILE_eq, IS_EPOSIDE_eq, IS_COMIC_eq, IS_TAG_eq, IS_TAGGED_eq,
    or_and_marker hid (by omega), or_and_marker hid (by omega),
    or_and_marker hid (by omega), or_and_marker hid (by omega),
    or_and_marker hid (by omega)]
  by_cases h63 : b = 63
  · simp [h63]
  · by_cases h62 : b = 62
    · simp [h62]
    · by_cases h61 : b = 61
      · simp [h61]
      · by_cases h60 : b = 60
        · simp [h60]
        · have h59 : b = 59 := by omega
          simp [h59]

theorem kindOf_comicIno {id : Nat} (hid : id < 2 ^ 59) :
    kindOf (comicIno id) = .Comic := by
  rw [comicIno, IS_COMIC_eq, kindOf_or hid (by omega) (by omega)]
  simp

theorem kindOf_eposideIno {id : Nat} (hid : id < 2 ^ 59) :
    kindOf (eposideIno id) = .Eposide := by
  rw [eposideIno, IS_EPOSIDE_eq, kindOf_or hid (by omega) (by omega)]
  simp

theorem kindOf_fileIno {id : Nat} (hid : id < 2 ^ 59) :
    kindOf (fileIno id) = .File := by
  rw [fileIno, IS_FILE_eq, kindOf_or hid (by omega) (by omega)]
  simp

theorem kindOf_tagIno {id : Nat} (hid : id < 2 ^ 59) :
    kindOf (tagIno id) = .Tag := by
  rw [tagIno, IS_TAG_eq, kindOf_or hid (by omega) (by omega)]
  simp

theorem kindOf_taggedIno {id : Nat} (hid : id < 2 ^ 59) :
    kindOf (taggedIno id) = .Tagged := by
  rw [taggedIno, IS_TAGGED_eq, kindOf_or hid (by omega) (by omega)]
  simp

theorem idOf_comicIno {id : Nat} (hid : id < 2 ^ 59) : idOf (comicIno id) = id := by
  rw [comicIno, IS_COMIC_eq, idOf_or hid (by omega)]

theorem idOf_eposideIno {id : Nat} (hid : id < 2 ^ 59) :
    idOf (eposideIno id) = id := by
  rw [eposideIno, IS_EPOSIDE_eq, idOf_or hid (by omega)]

theorem idOf_fileIno {id : Nat} (hid : id < 2 ^ 59) : idOf (fileIno id) = id := by
  rw [fileIno, IS_FILE_eq, idOf_or hid (by omega)]

theorem idOf_tagIno {id : Nat} (hid : id < 2 ^ 59) : idOf (tagIno id) = id := by
  rw [tagIno, IS_TAG_eq, idOf_or hid (by omega)]

/-- C7: the codec round-trips: for every non-special kind and positive row
id fitting in 59 bits, `encode (kind i) (id i) = i` where `i = encode k id`;
moreover `kind`/`id` recover the inputs and exactly one of bits 59-63 of
`i` is set. -/
theorem inode_codec_roundtrip (k : InodeKind) (id : Nat) (hk : k ≠ .Special)
    (h0 : 0 < id) (h59 : id < 2 ^ 59) :
    encode (kindOf (encode k id)) (idOf (encode k id)) = encode k id ∧
    kindOf (encode k id) = k ∧ idOf (encode k id) = id ∧
    markerCount (encode k id) = 1 := by
  have range5 : List.range 5 = [0, 1, 2, 3, 4] := rfl
  cases k with
  | Special => exact absurd rfl hk
  | File =>
    have hkind : kindOf (encode .File id) = .File := by
      rw [encode, markerBit, IS_FILE_eq, kindOf_or h59 (by omega) (by omega)]
      simp
    have hid : idOf (encode .File id) = id := by
      rw [encode, markerBit, IS_FILE_eq, idOf_or h59 (by omega)]
    refine ⟨by rw [hkind, hid], hkind, hid, ?_⟩
    rw [markerCount, encode, markerBit, IS_FILE_eq, range5]
    simp only [List.countP_cons, List.countP_nil,
      testBit_or_high h59 (by omega : 59 ≤ 59 + 0),
      testBit_or_high h59 (by omega : 59 ≤ 59 + 1),
      testBit_or_high h59 (by omega : 59 ≤ 59 + 2),
      testBit_or_high h59 (by omega : 59 ≤ 59 + 3),
      testBit_or_high h59 (by omega : 59 ≤ 59 + 4)]
    decide
  | Eposide =>
    have hkind : kindOf (encode .Eposide id) = .Eposide := by
      rw [encode, markerBit, IS_EPOSIDE_eq, kindOf_or h59 (by omega) (by omega)]
      simp
    have hid : idOf (encode .Eposide id) = id := by
      rw [encode, markerBit, IS_EPOSIDE_eq, idOf_or h59 (by omega)]
    refine ⟨by rw [hkind, hid], hkind, hid, ?_⟩
    rw [markerCount, encode, markerBit, IS_EPOSIDE_eq, range5]
    simp only [List.countP_cons, List.countP_nil,
      testBit_or_high h59 (by omega : 59 ≤ 59 + 0),
      testBit_or_high h59 (by omega : 59 ≤ 59 + 1),
      testBit_or_high h59 (by omega : 59 ≤ 59 + 2),
      testBit_or_high h59 (by omega : 59 ≤ 59 + 3),
      testBit_or_high h59 (by omega : 59 ≤ 59 + 4)]
    decide
  | Comic =>
    have hkind : kindOf (encode .Comic id) = .Comic := by
      rw [encode, markerBit, IS_COMIC_eq, kindOf_or h59 (by omega) (by omega)]
      simp
    have hid : idOf (encode .Comic id) = id := by
      rw [encode, markerBit, IS_COMIC_eq, idOf_or h59 (by omega)]
    refine ⟨by rw [hkind, hid], hkind, hid, ?_⟩
    rw [markerCount, encode, markerBit, IS_COMIC_eq, range5]
    simp only [List.countP_cons, List.countP_nil,
      testBit_or_high h59 (by omega : 59 ≤ 59 + 0),
      testBit_or_high h59 (by omega : 59 ≤ 59 + 1),
      testBit_or_high h59 (by omega : 59 ≤ 59 + 2),
      testBit_or_high h59 (by omega : 59 ≤ 59 + 3),
      testBit_or_high h59 (by omega : 59 ≤ 59 + 4)]
    decide
  | Tag =>
    have hkind : kindOf (encode .Tag id) = .Tag := by
      rw [encode, markerBit, IS_TAG_eq, kindOf_or h59 (by omega) (by omega)]
      simp
    have hid : idOf (encode .Tag id) = id := by
      rw [encode, markerBit, IS_TAG_eq, idOf_or h59 (by omega)]
    refine ⟨by rw [hkind, hid], hkind, hid, ?_⟩
    rw [markerCount, encode, markerBit, IS_TAG_eq, range5]
    simp only [List.countP_cons, List.countP_nil,
      testBit_or_high h59 (by omega : 59 ≤ 59 + 0),
      testBit_or_high h59 (by omega : 59 ≤ 59 + 1),
      testBit_or_high h59 (by omega : 59 ≤ 59 + 2),
      testBit_or_high h59 (by omega : 59 ≤ 59 + 3),
      testBit_or_high h59 (by omega : 59 ≤ 59 + 4)]
    decide
  | Tagged =>
    have hkind : kindOf (encode .Tagged id) = .Tagged := by
      rw [encode, markerBit, IS_TAGGED_eq, kindOf_or h59 (by omega) (by omega)]
      simp
    have hid : idOf (encode .Tagged id) = id := by
      rw [encode, markerBit, IS_TAGGED_eq, idOf_or h59 (by omega)]
    refine ⟨by rw [hkind, hid], hkind, hid, ?_⟩
    rw [markerCount, encode, markerBit, IS_TAGGED_eq, range5]
    simp only [List.countP_cons, List.countP_nil,
      testBit_or_high h59 (by omega : 59 ≤ 59 + 0),
      testBit_or_high h59 (by omega : 59 ≤ 59 + 1),
      testBit_or_high h59 (by omega : 59 ≤ 59 + 2),
      testBit_or_high h59 (by omega : 59 ≤ 59 + 3),
      testBit_or_high h59 (by omega : 59 ≤ 59 + 4)]
    decide

/-- C7 witness: the round-trip at kind `Comic`, id 5. -/
theorem inode_codec_roundtrip_witness :
    (InodeKind.Comic ≠ .Special) ∧ 0 < 5 ∧ 5 < 2 ^ 59 ∧
    (encode (kindOf (encode .Comic 5)) (idOf (encode .Comic 5)) = encode .Comic 5 ∧
     kindOf (encode .Comic 5) = .Comic ∧ idOf (encode .Comic 5) = 5 ∧
     markerCount (encode .Comic 5) = 1) :=
  ⟨by decide, by decide, by decide,
   inode_codec_roundtrip .Comic 5 (by decide) (by decide) (by decide)⟩

/-- C1: evaluating `link` at a comic source (id 5) under a tag parent
(id 7): the handler inserts `Taggable { tag_id := 5, taggable_id := 7 }` —
the source comic's id in `tag_id` and the tag's id in `taggable_id`,
swapped relative to the claim — and replies the *directory* attributes of
the source comic inode, not the attributes of the new Tagged inode. -/
theorem link_swaps_ids_and_replies_source :
    linkF S1 (comicIno 5) (tagIno 7) "n" =
      (.ok (directoryAttr (comicIno 5)),
       { S1 with cat := { S1.cat with taggables := [⟨1, 5, 7, "comic"⟩] } }) ∧
    (directoryAttr (comicIno 5)).ino ≠ taggedIno 1 ∧
    (directoryAttr (comicIno 5)).kind = .Directory := by
  refine ⟨by decide, by decide, by decide⟩

/-- C3: `read` on a File row whose `content_hash` is empty panics inside
`generate_storage_path` (`&""[0..2]` is out of bounds) instead of replying
an empty buffer. -/
theorem read_empty_hash_crashes :
    readF S3 (fileIno 1) 0 4096 = .crash ∧
    readF S3 (fileIno 1) 0 4096 ≠ .ok [] := by
  refine ⟨by decide, by decide⟩

/-- C5: forward resolution of a path whose first component is neither
`"comics"` nor `"tags"` hits the root `unreachable!` (a panic), not the
not-found outcome the claim states. -/
theorem resolve_unknown_root_component_crashes :
    resolveF S5 ["foo"] = .crash ∧ resolveF S5 ["foo"] ≠ .notFound := by
  refine ⟨by decide, by decide⟩

/-- C6: `lookup` under a tag finds the matching taggable (row id 10,
target comic id 2, name "N") and replies symlink attributes for the Tagged
inode — but the size is the path length of `Inode::comic(10)` (the
taggable row id, here the unrelated comic "LONGNAME", length 18), not the
length 11 of the actual target's path `/b/comics/N`. -/
theorem lookup_tag_size_uses_row_id :
    lookupF S6 (tagIno 1) "N" = .ok (symlinkAttr (taggedIno 10) 18) ∧
    resolveInodeF S6 (comicIno 2) = .found ["/b", "comics", "N"] ∧
    pathLen ["/b", "comics", "N"] = 11 ∧ (18 : Nat) ≠ 11 := by
  refine ⟨by decide, by decide, by decide, by decide⟩

/-! ## Helper lemmas for `write` (C2) -/

theorem sha256_length (msg : List Nat) : (Sha.sha256 msg).length = 32 := by
  simp [Sha.sha256, Sha.wordBytes]

theorem hexEncode_length (l : List Nat) : (hexEncode l).length = 2 * l.length := by
  show (l.flatMap _).length = 2 * l.length
  induction l with
  | nil => rfl
  | cons b t ih =>
    rw [List.flatMap_cons, List.length_append, ih, List.length_cons]
    simp
    omega

theorem updateHash_id (fid : Nat) (h : String) (f : File) :
    (File.updateHash fid h f).id = f.id := by
  unfold File.updateHash
  split <;> rfl

theorem find?_map_pres {α : Type _} (f : α → α) (p : α → Bool)
    (hp : ∀ x, p (f x) = p x) :
    ∀ l : List α, (l.map f).find? p = (l.find? p).map f := by
  intro l
  induction l with
  | nil => rfl
  | cons x t ih =>
    by_cases hx : p x
    · rw [List.map_cons, List.find?_cons_of_pos _ (by rw [hp]; exact hx),
        List.find?_cons_of_pos _ hx]
      rfl
    · rw [List.map_cons, List.find?_cons_of_neg _ (by rw [hp]; simpa using hx),
        List.find?_cons_of_neg _ (by simpa using hx), ih]

theorem findRow_updateContentHash (c : Catalog) (fid : Nat) (h : String) :
    File.findRow fid (c.updateContentHash fid h) =
      (File.findRow fid c).map (File.updateHash fid h) := by
  unfold File.findRow Catalog.updateContentHash
  exact find?_map_pres _ _ (fun x => by rw [updateHash_id]) _

theorem lookup_writeBlobAt (st : BlobStore) (p : List String) (off : Nat)
    (data : List Nat) :
    (st.writeBlobAt p off data).lookup p =
      (st.lookup p).map (fun b => { b with content := writeAt b.content off data }) := by
  unfold BlobStore.lookup BlobStore.writeBlobAt
  dsimp only
  rw [find?_map_pres
    (fun (e : List String × Blob) =>
      if e.1 == p then (e.1, { e.2 with content := writeAt e.2.content off data })
      else e)
    (fun e => e.1 == p)
    (fun e => by dsimp only; split <;> rfl) st.blobs]
  cases hfind : st.blobs.find? (fun e => e.1 == p) with
  | none => rfl
  | some e =>
    have he : e.1 = p := by
      simpa using @List.find?_some _ (fun e => e.1 == p) e st.blobs hfind
    simp [he]

theorem lookup_createFile_content (st : BlobStore) (p : List String) (meta : Blob) :
    ((st.createFile p meta).lookup p).map Blob.content = some [] := by
  unfold BlobStore.createFile
  by_cases hs : (st.lookup p).isSome
  · rw [if_pos hs]
    unfold BlobStore.lookup at *
    dsimp only
    rw [find?_map_pres
      (fun (e : List String × Blob) =>
        if e.1 == p then (e.1, { e.2 with content := [] }) else e)
      (fun e => e.1 == p)
      (fun e => by dsimp only; split <;> rfl) st.blobs]
    cases hfind : st.blobs.find? (fun e => e.1 == p) with
    | none => rw [hfind] at hs; simp at hs
    | some e =>
      have he : e.1 = p := by
        simpa using @List.find?_some _ (fun e => e.1 == p) e st.blobs hfind
      simp [he]
  · rw [if_neg hs]
    unfold BlobStore.lookup at *
    cases hfind : st.blobs.find? (fun e => e.1 == p) with
    | none =>
      rw [List.find?_append, hfind]
      simp
    | some e => rw [hfind] at hs; simp at hs

theorem dirs_createFile (st : BlobStore) (p : List String) (meta : Blob) :
    (st.createFile p meta).dirs = st.dirs := by
  unfold BlobStore.createFile
  split <;> rfl

theorem dirs_writeBlobAt (st : BlobStore) (p : List String) (off : Nat)
    (data : List Nat) : (st.writeBlobAt p off data).dirs = st.dirs := rfl

theorem mem_dirs_createDirAll (st : BlobStore) (p : List String) :
    p ∈ (st.createDirAll p).dirs := by
  unfold BlobStore.createDirAll
  by_cases hc : st.dirs.contains p
  · rw [if_pos hc]
    simpa using hc
  · rw [if_neg hc]
    simp

/-- C2: a `write` to a File inode whose row exists with empty
`content_hash` replies the byte count, records the lowercase hex SHA-256
digest of the payload in the row, and creates the blob (with its shard
directory) at `<STORAGE_BASE>/<hash[0..2]>/<hash>` holding the payload
written at the requested offset. -/
theorem write_first_write (s : FS) (ino : Nat) (off : Nat) (data : List Nat)
    (info : File) (hkind : kindOf ino = .File) (hid : idOf ino < 2 ^ 31)
    (hfind : File.findRow (idOf ino) s.cat = some info)
    (hempty : info.content_hash = "") :
    (writeF s ino off data).1 = .ok data.length ∧
    File.findRow (idOf ino) (writeF s ino off data).2.cat =
      some { info with content_hash := hexEncode (Sha.sha256 data) } ∧
    ((writeF s ino off data).2.store.lookup
        [s.sb, (hexEncode (Sha.sha256 data)).take 2,
         hexEncode (Sha.sha256 data)]).map Blob.content =
      some (writeAt [] off data) ∧
    [s.sb, (hexEncode (Sha.sha256 data)).take 2] ∈
      (writeF s ino off data).2.store.dirs := by
  have hinfoid : info.id = idOf ino := by
    have := List.find?_some hfind
    simpa using this
  have hlen : (hexEncode (Sha.sha256 data)).length = 64 := by
    rw [hexEncode_length, sha256_length]
  have hpath : generateStoragePath s.sb (hexEncode (Sha.sha256 data)) =
      some [s.sb, (hexEncode (Sha.sha256 data)).take 2,
        hexEncode (Sha.sha256 data)] := by
    unfold generateStoragePath
    rw [hlen]
    simp
  have hw : writeF s ino off data =
      (.ok data.length,
       { s with
          cat := s.cat.updateContentHash info.id (hexEncode (Sha.sha256 data)),
          store := ((s.store.createDirAll
              [s.sb, (hexEncode (Sha.sha256 data)).take 2]).createFile
              [s.sb, (hexEncode (Sha.sha256 data)).take 2,
               hexEncode (Sha.sha256 data)] s.freshMeta).writeBlobAt
              [s.sb, (hexEncode (Sha.sha256 data)).take 2,
               hexEncode (Sha.sha256 data)] off data }) := by
    unfold writeF
    rw [hkind]
    simp only [ne_eq, not_true_eq_false, if_false, reduceIte]
    unfold toI32
    rw [if_pos hid]
    simp only [hfind, hempty, hpath, if_true, reduceIte, List.dropLast]
  rw [hw]
  refine ⟨rfl, ?_, ?_, ?_⟩
  · have hfind' : File.findRow info.id s.cat = some info := by
      rw [hinfoid]
      exact hfind
    rw [← hinfoid, findRow_updateContentHash, hfind']
    show some (File.updateHash info.id (hexEncode (Sha.sha256 data)) info) = _
    unfold File.updateHash
    rw [if_pos (by simp)]
  · rw [lookup_writeBlobAt]
    have hcf := lookup_createFile_content
      (s.store.createDirAll [s.sb, (hexEncode (Sha.sha256 data)).take 2])
      [s.sb, (hexEncode (Sha.sha256 data)).take 2, hexEncode (Sha.sha256 data)]
      s.freshMeta
    cases hlook : ((s.store.createDirAll
        [s.sb, (hexEncode (Sha.sha256 data)).take 2]).createFile
        [s.sb, (hexEncode (Sha.sha256 data)).take 2,
         hexEncode (Sha.sha256 data)] s.freshMeta).lookup
        [s.sb, (hexEncode (Sha.sha256 data)).take 2,
         hexEncode (Sha.sha256 data)] with
    | none => rw [hlook] at hcf; simp at hcf
    | some b =>
      rw [hlook] at hcf
      simp at hcf
      simp [hcf]
  · rw [dirs_writeBlobAt, dirs_createFile]
    exact mem_dirs_createDirAll _ _

/-- C2 witness: the first write to file row 1 in `S2w` with payload
`[104, 105]` at offset 0. -/
theorem write_first_write_witness :
    kindOf (fileIno 1) = .File ∧ idOf (fileIno 1) < 2 ^ 31 ∧
    File.findRow (idOf (fileIno 1)) S2w.cat = some ⟨1, "f", "", 1, 0⟩ ∧
    (writeF S2w (fileIno 1) 0 [104, 105]).1 = .ok 2 :=
  ⟨by decide, by decide, by decide,
   (write_first_write S2w (fileIno 1) 0 [104, 105] ⟨1, "f", "", 1, 0⟩
     (by decide) (by decide) (by decide) rfl).1⟩

/-- The SHA-256/hex model reproduces the digest the spec's own scenario
lists for the bytes `hello\n`. -/
theorem sha256_hello_vector :
    hexEncode (Sha.sha256 [104, 101, 108, 108, 111, 10]) =
      "5891b5b522d5df086d0ff0b110fbd9d21bb4fc7163af34d08286a2e846f6be03" := by
  decide

/-! ## Round-trip of forward and reverse resolution (C4) -/

theorem find?_beq_of_mem_of_nodup {α : Type _} (f : α → Nat) {l : List α}
    {x : α} (hnd : (l.map f).Nodup) (hx : x ∈ l) :
    l.find? (fun y => f y == f x) = some x := by
  induction l with
  | nil => cases hx
  | cons a t ih =>
    rw [List.map_cons, List.nodup_cons] at hnd
    rcases List.mem_cons.mp hx with rfl | hxt
    · exact List.find?_cons_of_pos _ (by simp)
    · by_cases hfa : f a = f x
      · exact absurd (hfa ▸ List.mem_map_of_mem f hxt) hnd.1
      · rw [List.find?_cons_of_neg _ (by simpa using hfa)]
        exact ih hnd.2 hxt

theorem go_succ (s : FS) (fuel ino : Nat) :
    resolveInodeGo s (Nat.succ fuel) ino =
      resolveInodeStep s (resolveInodeGo s fuel) ino := rfl

theorem rig_root (s : FS) (n : Nat) :
    resolveInodeGo s (n + 1) 1 = .found [s.base] := by
  show resolveInodeGo s (Nat.succ n) 1 = _
  rw [go_succ]
  unfold resolveInodeStep
  rw [show kindOf 1 = .Special from by decide]
  simp

theorem rig_comics (s : FS) (n : Nat) :
    resolveInodeGo s (n + 2) 2 = .found [s.base, "comics"] := by
  show resolveInodeGo s (Nat.succ (n + 1)) 2 = _
  rw [go_succ]
  unfold resolveInodeStep
  rw [show kindOf 2 = .Special from by decide]
  simp [rig_root s n]
  rfl

theorem rig_tags (s : FS) (n : Nat) :
    resolveInodeGo s (n + 2) 3 = .found [s.base, "tags"] := by
  show resolveInodeGo s (Nat.succ (n + 1)) 3 = _
  rw [go_succ]
  unfold resolveInodeStep
  rw [show kindOf 3 = .Special from by decide]
  simp [rig_root s n]
  rfl

theorem rig_comic (s : FS) (hwf : CatalogWF s.cat) {c : Comic}
    (hc : c ∈ s.cat.comics) (n : Nat) :
    resolveInodeGo s (n + 3) (comicIno c.id) =
      .found [s.base, "comics", c.name] := by
  have hid31 : c.id < 2 ^ 31 := hwf.1.2 _ (List.mem_map_of_mem _ hc)
  have hid59 : c.id < 2 ^ 59 := lt_trans hid31 (by norm_num)
  have hfind : Comic.findRow c.id s.cat = some c :=
    find?_beq_of_mem_of_nodup Comic.id hwf.1.1 hc
  show resolveInodeGo s (Nat.succ (n + 2)) (comicIno c.id) = _
  rw [go_succ]
  unfold resolveInodeStep
  rw [kindOf_comicIno hid59, idOf_comicIno hid59]
  unfold toI32
  rw [if_pos hid31]
  dsimp only
  rw [hfind]
  dsimp only
  rw [rig_comics s n]
  rfl

theorem rig_tag (s : FS) (hwf : CatalogWF s.cat) {t : Tag}
    (ht : t ∈ s.cat.tags) (n : Nat) :
    resolveInodeGo s (n + 3) (tagIno t.id) =
      .found [s.base, "tags", t.name] := by
  have hid31 : t.id < 2 ^ 31 := hwf.2.2.2.2 _ (List.mem_map_of_mem _ ht)
  have hid59 : t.id < 2 ^ 59 := lt_trans hid31 (by norm_num)
  have hfind : Tag.findRow t.id s.cat = some t :=
    find?_beq_of_mem_of_nodup Tag.id hwf.2.2.2.1 ht
  show resolveInodeGo s (Nat.succ (n + 2)) (tagIno t.id) = _
  rw [go_succ]
  unfold resolveInodeStep
  rw [kindOf_tagIno hid59, idOf_tagIno hid59]
  unfold toI32
  rw [if_pos hid31]
  dsimp only
  rw [hfind]
  dsimp only
  rw [rig_tags s n]
  rfl

theorem rig_eposide (s : FS) (hwf : CatalogWF s.cat) {c : Comic} {e : Episode}
    (hc : c ∈ s.cat.comics) (he : e ∈ s.cat.eposides) (hce : e.comic_id = c.id)
    (n : Nat) :
    resolveInodeGo s (n + 4) (eposideIno e.id) =
      .found [s.base, "comics", c.name, e.name] := by
  have hid31 : e.id < 2 ^ 31 := hwf.2.1.2 _ (List.mem_map_of_mem _ he)
  have hid59 : e.id < 2 ^ 59 := lt_trans hid31 (by norm_num)
  have hfind : Episode.findRow e.id s.cat = some e :=
    find?_beq_of_mem_of_nodup Episode.id hwf.2.1.1 he
  show resolveInodeGo s (Nat.succ (n + 3)) (eposideIno e.id) = _
  rw [go_succ]
  unfold resolveInodeStep
  rw [kindOf_eposideIno hid59, idOf_eposideIno hid59]
  unfold toI32
  rw [if_pos hid31]
  dsimp only
  rw [hfind]
  dsimp only
  rw [hce, rig_comic s hwf hc n]
  rfl

theorem rig_file (s : FS) (hwf : CatalogWF s.cat) {c : Comic} {e : Episode}
    {f : File} (hc : c ∈ s.cat.comics) (he : e ∈ s.cat.eposides)
    (hf : f ∈ s.cat.files) (hce : e.comic_id = c.id) (hfe : f.eposid_id = e.id)
    (n : Nat) :
    resolveInodeGo s (n + 5) (fileIno f.id) =
      .found [s.base, "comics", c.name, e.name, f.name] := by
  have hid31 : f.id < 2 ^ 31 := hwf.2.2.1.2 _ (List.mem_map_of_mem _ hf)
  have hid59 : f.id < 2 ^ 59 := lt_trans hid31 (by norm_num)
  have hfind : File.findRow f.id s.cat = some f :=
    find?_beq_of_mem_of_nodup File.id hwf.2.2.1.1 hf
  show resolveInodeGo s (Nat.succ (n + 4)) (fileIno f.id) = _
  rw [go_succ]
  unfold resolveInodeStep
  rw [kindOf_fileIno hid59, idOf_fileIno hid59]
  unfold toI32
  rw [if_pos hid31]
  dsimp only
  rw [hfind]
  dsimp only
  rw [hfe, rig_eposide s hwf hc he hce n]
  rfl

theorem resolve_aux (s : FS) (hwf : CatalogWF s.cat) :
    ∀ (p : List String) (parent : Nat) (acc : List String) (i : Nat),
      StateInv s parent acc → resolveGo s parent p = .ino i →
      StateInv s i (acc ++ p) := by
  intro p
  induction p with
  | nil =>
    intro parent acc i hinv h
    unfold resolveGo at h
    cases h
    simpa using hinv
  | cons comp rest ih =>
    intro parent acc i hinv h
    rcases hinv with ⟨rfl, rfl⟩ | ⟨rfl, rfl⟩ | ⟨rfl, rfl⟩ |
      ⟨c, hc, rfl, rfl⟩ | ⟨c, e, hc, he, hce, rfl, rfl⟩ |
      ⟨c, e, f, hc, he, hf, hce, hfe, rfl, rfl⟩ | ⟨t, ht, rfl, rfl⟩
    · -- parent = 1 (root)
      unfold resolveGo at h
      rw [show kindOf 1 = .Special from by decide] at h
      simp only [reduceIte] at h
      by_cases h1 : comp = "comics"
      · rw [if_pos h1] at h
        have := ih 2 [s.base, "comics"] i (Or.inr (Or.inl ⟨rfl, rfl⟩)) h
        simpa [h1] using this
      · rw [if_neg h1] at h
        by_cases h2 : comp = "tags"
        · rw [if_pos h2] at h
          have := ih 3 [s.base, "tags"] i
            (Or.inr (Or.inr (Or.inl ⟨rfl, rfl⟩))) h
          simpa [h2] using this
        · rw [if_neg h2] at h
          cases h
    · -- parent = 2 (/comics)
      unfold resolveGo at h
      rw [show kindOf 2 = .Special from by decide] at h
      simp only [reduceIte] at h
      cases hfind : Comic.findByName comp s.cat with
      | none => rw [hfind] at h; cases h
      | some c =>
        rw [hfind] at h
        have hfind2 : s.cat.comics.find? (fun x => x.name == comp) = some c :=
          hfind
        have hcmem : c ∈ s.cat.comics := List.mem_of_find?_eq_some hfind2
        have hcname : c.name = comp := by
          simpa using @List.find?_some _ (fun x => x.name == comp) c
            s.cat.comics hfind2
        have := ih (comicIno c.id) [s.base, "comics", c.name] i
          (Or.inr (Or.inr (Or.inr (Or.inl ⟨c, hcmem, rfl, rfl⟩)))) h
        simpa [hcname] using this
    · -- parent = 3 (/tags)
      unfold resolveGo at h
      rw [show kindOf 3 = .Special from by decide] at h
      simp only [reduceIte] at h
      cases hfind : Tag.findByName comp s.cat with
      | none => rw [hfind] at h; cases h
      | some t =>
        rw [hfind] at h
        have hfind2 : s.cat.tags.find? (fun x => x.name == comp) = some t :=
          hfind
        have htmem : t ∈ s.cat.tags := List.mem_of_find?_eq_some hfind2
        have htname : t.name = comp := by
          simpa using @List.find?_some _ (fun x => x.name == comp) t
            s.cat.tags hfind2
        have := ih (tagIno t.id) [s.base, "tags", t.name] i
          (Or.inr (Or.inr (Or.inr (Or.inr (Or.inr (Or.inr ⟨t, htmem, rfl, rfl⟩))))))
          h
        simpa [htname] using this
    · -- parent is a comic directory
      have hid31 : c.id < 2 ^ 31 := hwf.1.2 _ (List.mem_map_of_mem _ hc)
      have hid59 : c.id < 2 ^ 59 := lt_trans hid31 (by norm_num)
      unfold resolveGo at h
      rw [kindOf_comicIno hid59, idOf_comicIno hid59] at h
      unfold toI32 at h
      rw [if_pos hid31] at h
      dsimp only at h
      cases hfind : Episode.findByComicAndName c.id comp s.cat with
      | none => rw [hfind] at h; cases h
      | some e =>
        rw [hfind] at h
        have hfind2 : s.cat.eposides.find?
            (fun x => x.comic_id == c.id && x.name == comp) = some e := hfind
        have hemem : e ∈ s.cat.eposides := List.mem_of_find?_eq_some hfind2
        have heprops : e.comic_id = c.id ∧ e.name = comp := by
          simpa using @List.find?_some _
            (fun x => x.comic_id == c.id && x.name == comp) e s.cat.eposides
            hfind2
        have := ih (eposideIno e.id) [s.base, "comics", c.name, e.name] i
          (Or.inr (Or.inr (Or.inr (Or.inr (Or.inl
            ⟨c, e, hc, hemem, heprops.1, rfl, rfl⟩))))) h
        simpa [heprops.2] using this
    · -- parent is an episode directory
      have hid31 : e.id < 2 ^ 31 := hwf.2.1.2 _ (List.mem_map_of_mem _ he)
      have hid59 : e.id < 2 ^ 59 := lt_trans hid31 (by norm_num)
      unfold resolveGo at h
      rw [kindOf_eposideIno hid59, idOf_eposideIno hid59] at h
      unfold toI32 at h
      rw [if_pos hid31] at h
      dsimp only at h
      cases hfind : File.findByEposideAndName e.id comp s.cat with
      | none => rw [hfind] at h; cases h
      | some f =>
        rw [hfind] at h
        have hfind2 : s.cat.files.find?
            (fun x => x.eposid_id == e.id && x.name == comp) = some f := hfind
        have hfmem : f ∈ s.cat.files := List.mem_of_find?_eq_some hfind2
        have hfprops : f.eposid_id = e.id ∧ f.name = comp := by
          simpa using @List.find?_some _
            (fun x => x.eposid_id == e.id && x.name == comp) f s.cat.files
            hfind2
        have := ih (fileIno f.id) [s.base, "comics", c.name, e.name, f.name] i
          (Or.inr (Or.inr (Or.inr (Or.inr (Or.inr (Or.inl
            ⟨c, e, f, hc, he, hfmem, hce, hfprops.1, rfl, rfl⟩)))))) h
        simpa [hfprops.2] using this
    · -- parent is a file: resolve crashes on any further component
      have hid59 : f.id < 2 ^ 59 :=
        lt_trans (hwf.2.2.1.2 _ (List.mem_map_of_mem _ hf)) (by norm_num)
      unfold resolveGo at h
      rw [kindOf_fileIno hid59] at h
      cases h
    · -- parent is a tag: resolve hits todo!()
      have hid59 : t.id < 2 ^ 59 :=
        lt_trans (hwf.2.2.2.2 _ (List.mem_map_of_mem _ ht)) (by norm_num)
      unfold resolveGo at h
      rw [kindOf_tagIno hid59] at h
      cases h

/-- C4 (amended): under the catalog's primary-key discipline, reverse
resolution of a successfully forward-resolved path yields the path again
*prefixed with the mount base* (`resolve_inode` pushes `self.base` when it
reaches the root), not the bare input path. -/
theorem resolve_roundtrip (s : FS) (p : List String) (i : Nat)
    (hwf : CatalogWF s.cat) (hres : resolveF s p = .ino i) :
    resolveInodeF s i = .found ([s.base] ++ p) := by
  have hinv := resolve_aux s hwf p 1 [s.base] i (Or.inl ⟨rfl, rfl⟩) hres
  rcases hinv with ⟨rfl, hacc⟩ | ⟨rfl, hacc⟩ | ⟨rfl, hacc⟩ |
    ⟨c, hc, rfl, hacc⟩ | ⟨c, e, hc, he, hce, rfl, hacc⟩ |
    ⟨c, e, f, hc, he, hf, hce, hfe, rfl, hacc⟩ | ⟨t, ht, rfl, hacc⟩
  · rw [hacc]
    exact rig_root s 4
  · rw [hacc]
    exact rig_comics s 3
  · rw [hacc]
    exact rig_tags s 3
  · rw [hacc]
    exact rig_comic s hwf hc 2
  · rw [hacc]
    exact rig_eposide s hwf hc he hce 1
  · rw [hacc]
    exact rig_file s hwf hc he hf hce hfe 0
  · rw [hacc]
    exact rig_tag s hwf ht 2

/-- C4 counterexample: with mount base `/mnt`, forward-resolving
`comics` gives inode 2, but reverse-resolving inode 2 gives
`/mnt/comics`, not the input path `comics`: the round trip is not the
identity. -/
theorem resolve_roundtrip_counterexample :
    resolveF S4c ["comics"] = .ino 2 ∧
    resolveInodeF S4c 2 = .found ["/mnt", "comics"] ∧
    resolveInodeF S4c 2 ≠ .found ["comics"] := by
  refine ⟨by decide, by decide, by decide⟩

/-- C4 witness: the amended round trip on `S4w` at path `comics/N`. -/
theorem resolve_roundtrip_witness :
    CatalogWF S4w.cat ∧ resolveF S4w ["comics", "N"] = .ino (comicIno 1) ∧
    resolveInodeF S4w (comicIno 1) = .found ["/w", "comics", "N"] :=
  ⟨by unfold CatalogWF idsOK; decide, by decide,
   resolve_roundtrip S4w ["comics", "N"] (comicIno 1)
     (by unfold CatalogWF idsOK; decide) (by decide)⟩

/-! ## mkdir dispatch (C9) -/

/-- C9 (amended): the `mkdir` dispatch as claimed — root replies `EPERM`,
the comics/tags/comic parents insert and reply the new directory's
attributes *provided the insert succeeds* (no sibling with that name
already exists — a duplicate insert fails and the handler aborts),
Episode/Tag parents reply `EPERM`, File/Tagged parents reply `ENOTDIR`. -/
theorem mkdir_dispatch (s : FS) (parent : Nat) (name : String) :
    (parent = 1 → mkdirF s parent name = (.err .EPERM, s)) ∧
    (parent = 2 → ∀ row cat', s.cat.insertComic name = some (row, cat') →
      mkdirF s parent name =
        (.ok (directoryAttr (comicIno row.id)), { s with cat := cat' })) ∧
    (parent = 3 → ∀ row cat', s.cat.insertTag name = some (row, cat') →
      mkdirF s parent name =
        (.ok (directoryAttr (tagIno row.id)), { s with cat := cat' })) ∧
    (kindOf parent = .Comic → idOf parent < 2 ^ 31 →
      ∀ row cat', s.cat.insertEposide (idOf parent) name = some (row, cat') →
      mkdirF s parent name =
        (.ok (directoryAttr (eposideIno row.id)), { s with cat := cat' })) ∧
    (kindOf parent = .Eposide ∨ kindOf parent = .Tag →
      mkdirF s parent name = (.err .EPERM, s)) ∧
    (kindOf parent = .File ∨ kindOf parent = .Tagged →
      mkdirF s parent name = (.err .ENOTDIR, s)) := by
  refine ⟨?_, ?_, ?_, ?_, ?_, ?_⟩
  · rintro rfl
    unfold mkdirF
    rw [show kindOf 1 = .Special from by decide]
    simp
  · rintro rfl row cat' hins
    unfold mkdirF
    rw [show kindOf 2 = .Special from by decide]
    simp [hins]
  · rintro rfl row cat' hins
    unfold mkdirF
    rw [show kindOf 3 = .Special from by decide]
    simp [hins]
  · intro hkind hid row cat' hins
    unfold mkdirF
    rw [hkind]
    unfold toI32
    rw [if_pos hid]
    dsimp only
    rw [hins]
  · rintro (hkind | hkind) <;> · unfold mkdirF; rw [hkind]
  · rintro (hkind | hkind) <;> · unfold mkdirF; rw [hkind]

/-- C9 counterexample: `mkdir(comics, "A")` when a comic named `"A"`
already exists: the insert fails, `.expect("Fail to insert")` panics, and
no row is inserted and no attributes are replied — the claim's
unconditional "a Comic is inserted and its directory attributes are
replied" is false. -/
theorem mkdir_duplicate_aborts :
    mkdirF S9c 2 "A" = (.crash, S9c) ∧
    (mkdirF S9c 2 "A").2.cat.comics = S9c.cat.comics := by
  refine ⟨by decide, by decide⟩

/-- C9 witness: the dispatch at `mkdir(comics, "A")` on an empty catalog. -/
theorem mkdir_dispatch_witness :
    S9w.cat.insertComic "A" = some (⟨1, "A"⟩, Cat9w) ∧
    mkdirF S9w 2 "A" =
      (.ok (directoryAttr (comicIno 1)), { S9w with cat := Cat9w }) :=
  ⟨by decide, (mkdir_dispatch S9w 2 "A").2.1 rfl ⟨1, "A"⟩ Cat9w (by decide)⟩

/-! ## readdir never errors (C10) -/

/-- C10: for every inode of kind Special 1/2/3, Comic, Episode, or Tag
(with a row id fitting in `i32`, as every inode the system mints has) and
every offset, `readdir` replies success — also when the catalog query
fails (`dbOk = false`), in which case the listing is empty rather than an
errno. -/
theorem readdir_always_ok (s : FS) (dbOk : Bool) (ino : Nat) (offset : Int)
    (h : ino = 1 ∨ ino = 2 ∨ ino = 3 ∨
      ((kindOf ino = .Comic ∨ kindOf ino = .Eposide ∨ kindOf ino = .Tag) ∧
        idOf ino < 2 ^ 31)) :
    (readdirF s dbOk ino offset).isOk = true := by
  rcases h with rfl | rfl | rfl | ⟨hkind, hid⟩
  · unfold readdirF
    simp [FRes.isOk]
  · unfold readdirF
    simp [FRes.isOk]
  · unfold readdirF
    simp [FRes.isOk]
  · have h1 : ino ≠ 1 := by
      rintro rfl
      rcases hkind with hk | hk | hk <;> exact absurd hk (by decide)
    have h2 : ino ≠ 2 := by
      rintro rfl
      rcases hkind with hk | hk | hk <;> exact absurd hk (by decide)
    have h3 : ino ≠ 3 := by
      rintro rfl
      rcases hkind with hk | hk | hk <;> exact absurd hk (by decide)
    unfold readdirF
    rw [if_neg h1, if_neg h2, if_neg h3]
    have hid' : idOf ino < 2147483648 := hid
    rcases hkind with hk | hk | hk <;>
      · rw [hk]
        by_cases hoff : offset = 0 <;>
          simp [hoff, toI32, hid, hid', FRes.isOk]

/-- C10 witness: `readdir` on the comics directory at offset 0. -/
theorem readdir_always_ok_witness :
    ((2 : Nat) = 1 ∨ (2 : Nat) = 2 ∨ (2 : Nat) = 3 ∨
      ((kindOf 2 = .Comic ∨ kindOf 2 = .Eposide ∨ kindOf 2 = .Tag) ∧
        idOf 2 < 2 ^ 31)) ∧
    (readdirF S10w true 2 0).isOk = true :=
  ⟨by decide, readdir_always_ok S10w true 2 0 (by decide)⟩

/-! ## Attribute uid/gid/mode policy (C8) -/

theorem convertMetaToAttr_fields {ino : Nat} {b : Blob} {a : FileAttr}
    (h : convertMetaToAttr ino b = some a) :
    a.uid = b.uid ∧ a.gid = b.gid ∧ a.perm = b.mode := by
  unfold convertMetaToAttr at h
  cases hb : b.ftype <;> rw [hb] at h <;> dsimp only [Option.bind] at h
  case other => cases h
  all_goals
    split at h
    · simp only [Option.some.injEq] at h
      subst h
      exact ⟨rfl, rfl, rfl⟩
    · cases h

/-- C8 counterexample: `getattr` on a File with a recorded content hash
replies the blob file's host metadata verbatim: the attribute has kind
RegularFile but `perm = 0o100644` (33188, `st_mode` with the file-type
bits), not the hard-coded 0644 the claim states. -/
theorem getattr_blob_mode_not_hardcoded :
    (getattrF S8 (fileIno 1)).map (fun a => (a.kind, a.perm)) =
      .ok (.RegularFile, 33188) ∧ (33188 : Nat) ≠ 0o644 := by
  refine ⟨by decide, by decide⟩

/-- C8 (amended): every attribute reply of every operation that replies
attributes — `getattr`, `lookup`, `mkdir`, `create`, `setattr`, `link` and
`symlink` — either hard-codes uid 1000, gid 1000 and mode 0755
(directories, symlinks) / 0644 (regular files), or — for a File with
non-empty `content_hash` in `lookup`, `getattr` and `setattr` — copies
uid, gid and mode verbatim from the blob file's host metadata (for
`setattr`, the metadata of the possibly-truncated blob in the resulting
state). -/
theorem attr_reply_policy (s : FS) :
    (∀ ino a, getattrF s ino = .ok a → hardcodedAttr a ∨ blobMetaAttr s a) ∧
    (∀ parent name a, lookupF s parent name = .ok a →
      hardcodedAttr a ∨ blobMetaAttr s a) ∧
    (∀ parent name a, (mkdirF s parent name).1 = .ok a → hardcodedAttr a) ∧
    (∀ ino np nn a, (linkF s ino np nn).1 = .ok a → hardcodedAttr a) ∧
    (∀ parent name a s', createF s parent name = (.ok a, s') →
      hardcodedAttr a) ∧
    (∀ ino size a s', setattrF s ino size = (.ok a, s') →
      hardcodedAttr a ∨ blobMetaAttr s' a) ∧
    (∀ parent link a s', symlinkF s parent link = (.ok a, s') →
      hardcodedAttr a) := by
  refine ⟨?_, ?_, ?_, ?_, ?_, ?_, ?_⟩
  · intro ino a h
    unfold getattrF at h
    repeat' split at h
    all_goals try (cases h)
    all_goals first
      | (left
         simp [hardcodedAttr, directoryAttr, fileAttr, symlinkAttr,
           ROOT_DIR_ATTR, COMICS_DIR_ATTR, TAGS_DIR_ATTR]
         done)
      | (right
         exact ⟨_, _, by assumption,
           (convertMetaToAttr_fields (by assumption)).1,
           (convertMetaToAttr_fields (by assumption)).2.1,
           (convertMetaToAttr_fields (by assumption)).2.2⟩)
  · intro parent name a h
    unfold lookupF at h
    repeat' split at h
    all_goals try (cases h)
    all_goals first
      | (left
         simp [hardcodedAttr, directoryAttr, fileAttr, symlinkAttr,
           ROOT_DIR_ATTR, COMICS_DIR_ATTR, TAGS_DIR_ATTR]
         done)
      | (right
         exact ⟨_, _, by assumption,
           (convertMetaToAttr_fields (by assumption)).1,
           (convertMetaToAttr_fields (by assumption)).2.1,
           (convertMetaToAttr_fields (by assumption)).2.2⟩)
  · intro parent name a h
    unfold mkdirF at h
    repeat' split at h
    all_goals dsimp only at h
    all_goals cases h
    all_goals
      simp [hardcodedAttr, directoryAttr]
  · intro ino np nn a h
    unfold linkF at h
    repeat' split at h
    all_goals dsimp only at h
    all_goals cases h
    all_goals
      simp [hardcodedAttr, directoryAttr]
  · intro parent name a s' h
    unfold createF at h
    repeat' split at h
    all_goals cases h
    all_goals
      simp [hardcodedAttr, fileAttr]
  · intro ino size a s' h
    unfold setattrF at h
    repeat' split at h
    all_goals try (cases h)
    all_goals first
      | (left
         simp [hardcodedAttr, fileAttr]
         done)
      | (right
         exact ⟨_, _, by assumption,
           (convertMetaToAttr_fields (by assumption)).1,
           (convertMetaToAttr_fields (by assumption)).2.1,
           (convertMetaToAttr_fields (by assumption)).2.2⟩)
  · intro parent link a s' h
    unfold symlinkF at h
    repeat' split at h
    all_goals cases h
    all_goals
      simp [hardcodedAttr, symlinkAttr]

/-- C8 witness: the policy applied to `getattr` of the root inode. -/
theorem attr_reply_policy_witness :
    hardcodedAttr ROOT_DIR_ATTR ∨ blobMetaAttr S8w ROOT_DIR_ATTR :=
  (attr_reply_policy S8w).1 1 ROOT_DIR_ATTR rfl

end CrawlerStorage
